import Mathlib

/-!
Shallow embedding of the umiPipeline repository (scripts/umi_forensics.py and
scripts/umi_pipeline.py) and proofs about its specified behaviour.

Strings are Lean `String`s (lists of characters).  The directory walk of
`find_fastq_pairs` is modelled as a list of (directory, filename) pairs in
walk order; `os.path.join` is modelled as `dir ++ "/" ++ name`.  External
process invocations are recorded as events; an oracle decides which
invocations succeed (exit status 0) and which fail.
-/

/-- Prefix test on lists, used to model Python string pattern operations. -/
def beginsWith [BEq α] : List α → List α → Bool
  | [], _ => true
  | _ :: _, [] => false
  | p :: ps, c :: cs => p == c && beginsWith ps cs

/-- Contiguous-substring test, modelling the Python `in` operator on strings. -/
def hasSubSeq [BEq α] (pat : List α) : List α → Bool
  | [] => pat.isEmpty
  | c :: rest => beginsWith pat (c :: rest) || hasSubSeq pat rest

/-- Contiguous-suffix test, modelling `str.endswith`. -/
def endsWithSeq [BEq α] (suf l : List α) : Bool := beginsWith suf.reverse l.reverse

/-- The extension filter in `find_fastq_pairs`:
`file.endswith(('.fastq', '.fastq.gz', '.fq', '.fq.gz'))`. -/
def hasFastqExt (f : String) : Bool :=
  endsWithSeq (".fastq").data f.data || endsWithSeq (".fastq.gz").data f.data ||
    endsWithSeq (".fq").data f.data || endsWithSeq (".fq.gz").data f.data

/-- The extension alternatives of the regex tail `\.f(ast)?q(\.gz)?`. -/
def extMatch (l : List Char) : Bool :=
  l == (".fastq").data || l == (".fastq.gz").data || l == (".fq").data || l == (".fq.gz").data

/-- One-or-more digits (the regex `\d+`) followed by one of the four extensions, consuming the whole remainder
(the list is one-or-more digits and then exactly an extension). -/
def digitsExt : List Char → Bool
  | [] => false
  | c :: rest => c.isDigit && (extMatch rest || digitsExt rest)

/-- Whether the anchored regex `_R[12]_\d+\.f(ast)?q(\.gz)?$` matches starting at
the head of the list and reaching the end. -/
def readSuffixAt (l : List Char) : Bool :=
  match l with
  | a :: b :: d :: e :: rest =>
      a == '_' && b == 'R' && (d == '1' || d == '2') && e == '_' && digitsExt rest
  | _ => false

/-- The `re.sub` call with the `$`-anchored pattern: delete the leftmost match (which
necessarily extends to the end of the string), if any. -/
def stripAux : List Char → List Char
  | [] => []
  | c :: rest => if readSuffixAt (c :: rest) then [] else c :: stripAux rest

/-- Sample-name extraction in `find_fastq_pairs`:
`re.sub(r'_R[12]_\d+\.f(ast)?q(\.gz)?$', '', file)`. -/
def stripReadSuffix (f : String) : String := ⟨stripAux f.data⟩

/-- One value of the `fastq_files` dict in `find_fastq_pairs`:
`{'R1': None, 'R2': None}` with slots filled in as files are walked. -/
structure PairEntry where
  r1 : Option String
  r2 : Option String
deriving DecidableEq

/-- The freshly created dict value `{'R1': None, 'R2': None}`. -/
def emptyEntry : PairEntry := ⟨none, none⟩

/-- Role assignment in `find_fastq_pairs`:
`if '_R1_' in file: ... elif '_R2_' in file: ...`. -/
def applyRole (file filepath : String) (e : PairEntry) : PairEntry :=
  if hasSubSeq ("_R1_").data file.data then { e with r1 := some filepath }
  else if hasSubSeq ("_R2_").data file.data then { e with r2 := some filepath }
  else e

/-- Dict lookup (`fastq_files[sample]`), the dict modelled as an association
list in insertion order. -/
def lookupSample : List (String × PairEntry) → String → Option PairEntry
  | [], _ => none
  | kv :: rest, k => if kv.1 = k then some kv.2 else lookupSample rest k

/-- Dict membership test (`sample not in fastq_files`). -/
def containsKey : List (String × PairEntry) → String → Bool
  | [], _ => false
  | kv :: rest, k => if kv.1 = k then true else containsKey rest k

/-- In-place update of the entry stored under a key (dict keys are unique, so
updating every matching entry of the association list is the dict update). -/
def updateSample : List (String × PairEntry) → String → String → String →
    List (String × PairEntry)
  | [], _, _, _ => []
  | kv :: rest, k, file, filepath =>
      (if kv.1 = k then (kv.1, applyRole file filepath kv.2) else kv) ::
        updateSample rest k file filepath

/-- Processing of one walked file inside the loop of `find_fastq_pairs`:
extension filter, sample-name extraction, dict-entry creation, role update. -/
def insertFile (m : List (String × PairEntry)) (root file : String) :
    List (String × PairEntry) :=
  if hasFastqExt file then
    updateSample
      (if containsKey m (stripReadSuffix file) then m
       else m ++ [(stripReadSuffix file, emptyEntry)])
      (stripReadSuffix file) file (root ++ "/" ++ file)
  else m

/-- The function `find_fastq_pairs` over the walked (directory, filename) list. -/
def find_fastq_pairs (files : List (String × String)) : List (String × PairEntry) :=
  files.foldl (fun m rf => insertFile m rf.1 rf.2) []

/-- Number of entries stored under a key. -/
def keyCount : List (String × PairEntry) → String → Nat
  | [], _ => 0
  | kv :: rest, k => (if kv.1 = k then 1 else 0) + keyCount rest k

/-- Outcome of `process_sample` in umi_forensics.py: either the sample is
skipped with a printed warning, or a command line is executed. -/
inductive ProcessAction where
  | skipped (warning : String)
  | ran (cmd : List String)
deriving DecidableEq

/-- The argument dictionary handed to `process_sample`. -/
structure ForensicsArgs where
  output : String
  genome : String
  ini : String
  library : String
  bed : String
deriving DecidableEq

/-- The function `process_sample` of umi_forensics.py (the `subprocess.run` call is the
returned command line; a failure there is printed and swallowed). -/
def process_sample (a : ForensicsArgs) (sample : String) (files : PairEntry) :
    ProcessAction :=
  match files.r1 with
  | none =>
      ProcessAction.skipped
        (("Warning: No R1 file found for sample ") ++ sample ++ (", skipping..."))
  | some r1 =>
      ProcessAction.ran
        ((["run_umierrorcorrect_forensics.py", "-r1", r1] ++
          (match files.r2 with
           | some r2 => ["-r2", r2, "-p"]
           | none => [])) ++
          ["-o", a.output, "-g", a.genome, "-i", a.ini, "-l", a.library, "-b", a.bed])

example : stripReadSuffix ("sample_R1_001.fastq.gz") = "sample" := by decide
example : stripReadSuffix ("a_R1_b_R2_001.fastq.gz") = "a_R1_b" := by decide
example :
    lookupSample
      (find_fastq_pairs [("d", "s_R1_001.fastq.gz"), ("d", "s_R2_001.fastq.gz")]) ("s")
      = some ⟨some ("d/s_R1_001.fastq.gz"), some ("d/s_R2_001.fastq.gz")⟩ := by decide
example :
    lookupSample
      (find_fastq_pairs [("d", "a_R1_b_R1_001.fastq.gz"), ("d", "a_R1_b_R2_001.fastq.gz")])
      ("a_R1_b")
      = some ⟨some ("d/a_R1_b_R2_001.fastq.gz"), none⟩ := by decide

/-- The final path component (`PurePath.name`): the characters after the last
slash. -/
def lastComponent (s : String) : String :=
  ⟨(s.data.reverse.takeWhile (fun c => c != '/')).reverse⟩

/-- Python `PurePath.stem` on a path component: remove the last dot-suffix, where a
dot at position 0 or at the very end does not count as starting a suffix. -/
def pyStemList (l : List Char) : List Char :=
  match l.reverse.dropWhile (fun c => c != '.') with
  | [] => l
  | _ :: tail =>
      if l.reverse.takeWhile (fun c => c != '.') = [] then l
      else if tail = [] then l
      else tail.reverse

/-- Python `Path.stem` of a full path string. -/
def pyStem (s : String) : String := ⟨pyStemList (lastComponent s).data⟩

/-- Python `str.replace(old, new)` for a non-empty `old`: replace every leftmost,
non-overlapping occurrence, scanning left to right.  The fuel argument (always
called with at least the list's length) makes the recursion structural: each
step consumes at least one character. -/
def replaceListAux (pat rep : List Char) : Nat → List Char → List Char
  | _, [] => []
  | 0, l => l
  | fuel + 1, c :: rest =>
      if pat ≠ [] ∧ beginsWith pat (c :: rest) = true then
        rep ++ replaceListAux pat rep fuel ((c :: rest).drop pat.length)
      else
        c :: replaceListAux pat rep fuel rest

/-- Python `str.replace(old, new)` on character lists. -/
def replaceList (pat rep l : List Char) : List Char :=
  replaceListAux pat rep l.length l

/-- Python `str.replace` lifted to `String`. -/
def strReplace (s pat rep : String) : String := ⟨replaceList pat.data rep.data s.data⟩

/-- Sample name in `process_fastq_pair`: `fq1.stem.replace(".fastq.gz", "")`. -/
def pipelineSampleName (fq1 : String) : String :=
  strReplace (pyStem fq1) (".fastq.gz") ("")

/-- The parsed argparse namespace of umi_pipeline.py (after `input_dir` has
been resolved). -/
structure PipelineArgs where
  input_dir : String
  bed : Option String
  reference : String
  umi_length : Nat
  spacer_length : Nat
  threads : Nat
  do_filtering : Bool
  phred_score : Nat
  percent_low_quality : Nat
  skip_fastqc : Bool
  skip_multiqc : Bool
  merge_reads : Bool
deriving DecidableEq

/-- The fastp command line built by `run_fastp` (merge mode and split mode). -/
def fastp_cmd (fq1 fq2 output_dir sample_name : String) (merge_reads : Bool)
    (threads phred percent : Nat) : List String :=
  if merge_reads then
    ["fastp", "--in1", fq1, "--in2", fq2, "--merge",
     "--merged_out", output_dir ++ "/" ++ sample_name ++ ".merged.filtered.fastq.gz",
     "--qualified_quality_phred", toString phred,
     "--unqualified_percent_limit", toString percent,
     "--trim_poly_g", "--trim_poly_x", "--length_required", "100",
     "--thread", toString (threads / 2)]
  else
    ["fastp", "--in1", fq1, "--in2", fq2,
     "--out1", output_dir ++ "/" ++ sample_name ++ ".filtered.R1.fastq.gz",
     "--out2", output_dir ++ "/" ++ sample_name ++ ".filtered.R2.fastq.gz",
     "--qualified_quality_phred", toString phred,
     "--unqualified_percent_limit", toString percent,
     "--trim_poly_g", "--trim_poly_x", "--length_required", "100",
     "--thread", toString (threads / 2)]

/-- The pair returned by `run_fastp`: (merged output, None) in merge mode,
(filtered R1, filtered R2) otherwise. -/
def fastp_outputs (output_dir sample_name : String) (merge_reads : Bool) :
    String × Option String :=
  if merge_reads then
    (output_dir ++ "/" ++ sample_name ++ ".merged.filtered.fastq.gz", none)
  else
    (output_dir ++ "/" ++ sample_name ++ ".filtered.R1.fastq.gz",
     some (output_dir ++ "/" ++ sample_name ++ ".filtered.R2.fastq.gz"))

/-- The run_umierrorcorrect.py command line built by `run_umierrorcorrect`. -/
def umierrorcorrect_cmd (r1 : String) (r2 : Option String)
    (output_dir sample_name ref : String) (umi_length spacer_length : Nat)
    (bed : Option String) (threads : Nat) : List String :=
  (["run_umierrorcorrect.py",
    "-o", output_dir ++ "/" ++ sample_name,
    "-r1", r1,
    "-r", ref,
    "-ul", toString umi_length,
    "-sl", toString spacer_length,
    "-t", toString threads] ++
   (match r2 with
    | some r2v => ["-r2", r2v, "-mode", "paired"]
    | none => ["-mode", "single"])) ++
  (match bed with
   | some b => ["-bed", b]
   | none => [])

/-- The path `filtered_dir = args.input_dir / "filtered_fastqs"`. -/
def filteredDirOf (args : PipelineArgs) : String := args.input_dir ++ "/filtered_fastqs"

/-- The path `umi_corrected_dir = args.input_dir / "umi_corrected_samples"`. -/
def umiDirOf (args : PipelineArgs) : String := args.input_dir ++ "/umi_corrected_samples"

/-- The fastp invocation of `process_fastq_pair`, with
`fq2 = Path(str(fq1).replace("R1", "R2"))`. -/
def pipelineFastpCmd (args : PipelineArgs) (fq1 : String) : List String :=
  fastp_cmd fq1 (strReplace fq1 ("R1") ("R2")) (filteredDirOf args)
    (pipelineSampleName fq1) args.merge_reads args.threads args.phred_score
    args.percent_low_quality

/-- The (r1, r2) pair used by `process_fastq_pair`: the fastp outputs when
filtering runs, the raw `fq1` and substituted `fq2` otherwise. -/
def pipelineR1R2 (args : PipelineArgs) (fq1 : String) : String × Option String :=
  if args.do_filtering then
    fastp_outputs (filteredDirOf args) (pipelineSampleName fq1) args.merge_reads
  else
    (fq1, some (strReplace fq1 ("R1") ("R2")))

/-- The run_umierrorcorrect.py invocation of `process_fastq_pair`; the second
argument is `r2 if not args.merge_reads else None`. -/
def pipelineUmiCmd (args : PipelineArgs) (fq1 : String) : List String :=
  umierrorcorrect_cmd (pipelineR1R2 args fq1).1
    (if args.merge_reads then none else (pipelineR1R2 args fq1).2)
    (umiDirOf args) (pipelineSampleName fq1) args.reference args.umi_length
    args.spacer_length args.bed args.threads

/-- Observable actions of the scripts: directory creation, file creation,
external process invocation, log lines. -/
inductive Event where
  | mkDir (path : String)
  | writeFile (path : String)
  | runCmd (cmd : List String)
  | logInfo (msg : String)
  | logError (msg : String)
deriving DecidableEq

/-- The function `process_fastq_pair` of umi_pipeline.py, as the list of events it performs
and whether it returns normally (`true`) or re-raises (`false`).  The oracle
gives each external invocation's success. -/
def process_fastq_pair (oracle : List String → Bool) (args : PipelineArgs)
    (fq1 : String) : List Event × Bool :=
  if args.do_filtering then
    if oracle (pipelineFastpCmd args fq1) then
      if oracle (pipelineUmiCmd args fq1) then
        ([Event.logInfo (("Processing sample: ") ++ pipelineSampleName fq1),
          Event.runCmd (pipelineFastpCmd args fq1),
          Event.runCmd (pipelineUmiCmd args fq1)], true)
      else
        ([Event.logInfo (("Processing sample: ") ++ pipelineSampleName fq1),
          Event.runCmd (pipelineFastpCmd args fq1),
          Event.runCmd (pipelineUmiCmd args fq1),
          Event.logError (("Error running umierrorcorrect for ") ++ pipelineSampleName fq1),
          Event.logError (("Error processing ") ++ pipelineSampleName fq1)], false)
    else
      ([Event.logInfo (("Processing sample: ") ++ pipelineSampleName fq1),
        Event.runCmd (pipelineFastpCmd args fq1),
        Event.logError (("Error running fastp for ") ++ fq1 ++ (" and ") ++
          strReplace fq1 ("R1") ("R2")),
        Event.logError (("Error processing ") ++ pipelineSampleName fq1)], false)
  else
    if oracle (pipelineUmiCmd args fq1) then
      ([Event.logInfo (("Processing sample: ") ++ pipelineSampleName fq1),
        Event.runCmd (pipelineUmiCmd args fq1)], true)
    else
      ([Event.logInfo (("Processing sample: ") ++ pipelineSampleName fq1),
        Event.runCmd (pipelineUmiCmd args fq1),
        Event.logError (("Error running umierrorcorrect for ") ++ pipelineSampleName fq1),
        Event.logError (("Error processing ") ++ pipelineSampleName fq1)], false)

/-- The world umi_pipeline.py's `main` runs in: which files and directories
exist, whether the five dependency binaries are all on PATH, the directory
listing of the input directory, the recursive `*.fastq.gz` listing used by
`run_qc`, which reporting binaries `shutil.which` finds, and the oracle for
external invocations. -/
structure Env where
  files : List String
  dirs : List String
  depsOk : Bool
  inputNames : List String
  rglobNames : List String
  whichFastqc : Bool
  whichMultiqc : Bool
  oracle : List String → Bool

/-- The function `check_dependencies`: its boolean result and the log lines it emits. -/
def check_dependencies_ev (env : Env) : Bool × List Event :=
  if env.depsOk then (true, [Event.logInfo ("All dependencies are present.")])
  else (false, [Event.logError ("Missing dependencies")])

/-- Python `Path.is_file()` against the world's set of existing files. -/
def fileExists (env : Env) (p : String) : Bool := env.files.contains p

/-- Python `Path.is_dir()` against the world's set of existing directories. -/
def dirExists (env : Env) (p : String) : Bool := env.dirs.contains p

/-- The function `check_paths`: its boolean result and the log lines it emits. -/
def check_paths_ev (env : Env) (run_dir ref : String) (bed : Option String) :
    Bool × List Event :=
  if !dirExists env run_dir then
    (false, [Event.logError (("Input directory does not exist: ") ++ run_dir)])
  else if !fileExists env ref then
    (false, [Event.logError (("Reference genome file not found: ") ++ ref)])
  else
    match bed with
    | some b =>
        if !fileExists env b then
          (false, [Event.logError (("BED file not found: ") ++ b)])
        else (true, [])
    | none => (true, [])

/-- The glob `args.input_dir.glob("*R1*.fastq.gz")`: names ending in `.fastq.gz` whose
part before that extension contains `R1`. -/
def globR1 (names : List String) : List String :=
  names.filter (fun f =>
    endsWithSeq (".fastq.gz").data f.data &&
      hasSubSeq ("R1").data (f.data.take (f.data.length - 9)))

/-- The full paths `main` hands to the worker pool. -/
def samplePaths (env : Env) (args : PipelineArgs) : List String :=
  (globR1 env.inputNames).map (fun f => args.input_dir ++ "/" ++ f)

/-- The per-sample outcomes of the `mp.Pool(...).starmap(process_fastq_pair, ...)`
call: the pool applies `process_fastq_pair` to every discovered pair (a worker
exception is recorded and re-raised to `main` only after all tasks ran). -/
def sampleRuns (env : Env) (args : PipelineArgs) : List (List Event × Bool) :=
  (samplePaths env args).map (process_fastq_pair env.oracle args)

/-- Whether one pool task re-raised. -/
def failSnd (r : List Event × Bool) : Bool := !r.2

/-- The directories `main` creates up front and the log file opened by
`setup_logging`. -/
def mainSetup (args : PipelineArgs) : List Event :=
  [Event.mkDir (args.input_dir ++ "/filtered_fastqs"),
   Event.mkDir (args.input_dir ++ "/umi_corrected_samples"),
   Event.mkDir (args.input_dir ++ "/qc_reports"),
   Event.writeFile (args.input_dir ++ "/script_log.txt")]

/-- The function `run_qc`: FastQC over every `*.fastq.gz` under the run directory, then
MultiQC, each skippable and each guarded by `shutil.which`; failures there are
logged and swallowed. -/
def run_qc_trace (env : Env) (run_dir : String) (skip_fastqc skip_multiqc : Bool) :
    List Event :=
  ([Event.mkDir (run_dir ++ "/qc_reports")] ++
   (if !skip_fastqc && env.whichFastqc then
      [Event.logInfo ("Running FastQC...")] ++
        env.rglobNames.flatMap (fun fq =>
          [Event.runCmd ["fastqc", "-o", run_dir ++ "/qc_reports", fq]] ++
            (if env.oracle ["fastqc", "-o", run_dir ++ "/qc_reports", fq] then []
             else [Event.logError (("Error running FastQC on ") ++ fq)]))
    else [])) ++
  (if !skip_multiqc && env.whichMultiqc then
     [Event.logInfo ("Running MultiQC...")] ++
       [Event.runCmd ["multiqc", run_dir, "-o", run_dir ++ "/qc_reports"]] ++
       (if env.oracle ["multiqc", run_dir, "-o", run_dir ++ "/qc_reports"] then []
        else [Event.logError ("Error running MultiQC")])
   else [])

/-- Result of one whole run of `main`: its event trace, its exit status, and
whether control reached the `run_qc` call. -/
structure MainResult where
  trace : List Event
  exitCode : Nat
  ranQC : Bool
deriving DecidableEq

/-- The function `main` of umi_pipeline.py: make the three output directories, open the log
file, check dependencies then paths (exit 1 on failure), run every discovered
pair through the pool, and on any worker exception log and exit 1 — otherwise
run the QC stages and finish with exit status 0. -/
def main_run (env : Env) (args : PipelineArgs) : MainResult :=
  if !(check_dependencies_ev env).1 then
    ⟨mainSetup args ++ (check_dependencies_ev env).2, 1, false⟩
  else if !(check_paths_ev env args.input_dir args.reference args.bed).1 then
    ⟨mainSetup args ++ (check_dependencies_ev env).2 ++
      (check_paths_ev env args.input_dir args.reference args.bed).2, 1, false⟩
  else if (sampleRuns env args).any failSnd then
    ⟨mainSetup args ++ (check_dependencies_ev env).2 ++
      (check_paths_ev env args.input_dir args.reference args.bed).2 ++
      ((sampleRuns env args).map Prod.fst).flatten ++
      [Event.logError ("Error during FASTQ processing")], 1, false⟩
  else
    ⟨mainSetup args ++ (check_dependencies_ev env).2 ++
      (check_paths_ev env args.input_dir args.reference args.bed).2 ++
      ((sampleRuns env args).map Prod.fst).flatten ++
      run_qc_trace env args.input_dir args.skip_fastqc args.skip_multiqc ++
      [Event.logInfo ("Processing complete.")], 0, true⟩

/-- Whether a path lies strictly below a directory. -/
def isUnder (dir p : String) : Bool := beginsWith (dir ++ "/").data p.data

/-- Whether an event creates a filesystem entry below the given directory. -/
def eventWritesUnder (dir : String) : Event → Bool
  | Event.mkDir p => isUnder dir p
  | Event.writeFile p => isUnder dir p
  | _ => false

/-- No event of the trace creates anything below the given directory. -/
def cleanOf (dir : String) (tr : List Event) : Bool :=
  tr.all (fun e => !eventWritesUnder dir e)

/-- Whether the event is an external process invocation. -/
def isRunCmdEv : Event → Bool
  | Event.runCmd _ => true
  | _ => false

/-- Whether any external process was invoked. -/
def hasRunCmd (tr : List Event) : Bool := tr.any isRunCmdEv

/-- Whether the event is an error log line. -/
def isLogErrorEv : Event → Bool
  | Event.logError _ => true
  | _ => false

/-- Whether any error was logged. -/
def hasLogError (tr : List Event) : Bool := tr.any isLogErrorEv

/-- Number of external process invocations in a trace. -/
def countRunCmd (tr : List Event) : Nat := (tr.filter isRunCmdEv).length

/-- First run_umierrorcorrect.py invocation recorded in a trace, if any. -/
def findUmiCmd : List Event → Option (List String)
  | [] => none
  | Event.runCmd c :: rest =>
      if c.head? = some ("run_umierrorcorrect.py") then some c else findUmiCmd rest
  | _ :: rest => findUmiCmd rest

/-- Modelled from the spec: the Scheduler (`multiprocessing.Pool(args.threads)`
in the source, whose internals are not part of this repository) per spec
sections 4.4 and 5 — a bounded pool of N workers; a pending task may start
whenever fewer than N tasks are running, and a running task may finish, moving
to done.  A state of that scheduler. -/
structure SchedState where
  pending : List Nat
  running : List Nat
  done : List Nat
deriving DecidableEq

/-- Modelled from the spec: one scheduling step of the bounded-concurrency
worker pool with limit N. -/
inductive SchedStep (N : Nat) : SchedState → SchedState → Prop
  | start (t : Nat) (p r d : List Nat) :
      r.length < N → SchedStep N ⟨t :: p, r, d⟩ ⟨p, t :: r, d⟩
  | finish (t : Nat) (p r1 r2 d : List Nat) :
      SchedStep N ⟨p, r1 ++ t :: r2, d⟩ ⟨p, r1 ++ r2, t :: d⟩

/-- Reachability under the scheduler's step relation. -/
def SchedReach (N : Nat) : SchedState → SchedState → Prop :=
  Relation.ReflTransGen (SchedStep N)

/-- The configuration both concrete runs below use: filtering on, no merging,
reference at /ref/genome.fa, input at /in. -/
def argsBase : PipelineArgs :=
  ⟨"/in", none, "/ref/genome.fa", 19, 16, 4, true, 20, 40, false, false, false⟩

/-- An oracle under which every external invocation succeeds. -/
def oracleTrue : List String → Bool := fun _ => true

/-- A world with one discovered sample whose every invocation fails. -/
def envC1 : Env :=
  ⟨["/ref/genome.fa"], ["/in"], true, ["s_R1_001.fastq.gz"], [], true, true,
   fun _ => false⟩

/-- A world with two discovered samples in which exactly sample a's fastp
invocation fails and everything else succeeds. -/
def envC8 : Env :=
  ⟨["/ref/genome.fa"], ["/in"], true,
   ["a_R1_001.fastq.gz", "b_R1_001.fastq.gz"], [], true, true,
   fun c => !(c == pipelineFastpCmd argsBase ("/in/a_R1_001.fastq.gz"))⟩

/-- A world holding only sample s's R1 file (no R2 file exists). -/
def envC7 : Env :=
  ⟨["/in/s_R1_001.fastq.gz", "/ref/genome.fa"], ["/in"], true,
   ["s_R1_001.fastq.gz"], [], true, true, oracleTrue⟩

/-- A world whose reference file is missing. -/
def envC2 : Env :=
  ⟨[], ["/in"], true, ["s_R1_001.fastq.gz"], [], true, true, oracleTrue⟩

example : pipelineSampleName ("/in/sample_R1_001.fastq.gz") = "sample_R1_001.fastq" := by
  decide
example : (main_run envC1 argsBase).exitCode = 1 := by decide
example : (main_run envC1 argsBase).ranQC = false := by decide

theorem data_append (a b : String) : (a ++ b).data = a.data ++ b.data := by
  cases a
  cases b
  rfl

theorem mk_data (s : String) : String.mk s.data = s := by
  cases s
  rfl

theorem beginsWith_refl_append [BEq α] [LawfulBEq α] (l t : List α) :
    beginsWith l (l ++ t) = true := by
  induction l with
  | nil => rfl
  | cons c cs ih => simp [beginsWith, ih]

theorem beginsWith_append_cancel [BEq α] [LawfulBEq α] (x a b : List α) :
    beginsWith (x ++ a) (x ++ b) = beginsWith a b := by
  induction x with
  | nil => rfl
  | cons c cs ih => simp [beginsWith, ih]

theorem hasSubSeq_append_mid [BEq α] [LawfulBEq α] (pat x y : List α) :
    hasSubSeq pat (x ++ (pat ++ y)) = true := by
  induction x with
  | nil =>
      cases pat with
      | nil =>
          cases y with
          | nil => rfl
          | cons c t =>
              simp only [List.nil_append, hasSubSeq, Bool.or_eq_true]
              exact Or.inl rfl
      | cons p ps =>
          simp only [List.nil_append, List.cons_append, hasSubSeq, Bool.or_eq_true]
          exact Or.inl (beginsWith_refl_append (p :: ps) y)
  | cons c cs ih => simp [hasSubSeq, ih]

theorem endsWithSeq_append [BEq α] [LawfulBEq α] (s x : List α) :
    endsWithSeq s (x ++ s) = true := by
  unfold endsWithSeq
  rw [List.reverse_append]
  exact beginsWith_refl_append _ _

theorem hasFastqExt_gz {f : String} (w : List Char)
    (h : f.data = w ++ (".fastq.gz").data) : hasFastqExt f = true := by
  unfold hasFastqExt
  rw [h, endsWithSeq_append]
  simp

theorem extMatch_no_us {l : List Char} (h : extMatch l = true) : ¬ ('_' ∈ l) := by
  unfold extMatch at h
  simp only [Bool.or_eq_true, beq_iff_eq] at h
  rcases h with ((h | h) | h) | h <;> subst h <;> decide

theorem digitsExt_no_us {l : List Char} (h : digitsExt l = true) : ¬ ('_' ∈ l) := by
  induction l with
  | nil => simp
  | cons c rest ih =>
      rw [digitsExt] at h
      simp only [Bool.and_eq_true, Bool.or_eq_true] at h
      intro hm
      rcases List.mem_cons.mp hm with hc | hrest
      · subst hc
        have : ('_' : Char).isDigit = false := by decide
        rw [this] at h
        exact Bool.false_ne_true h.1
      · rcases h.2 with hext | hdig
        · exact extMatch_no_us hext hrest
        · exact ih hdig hrest

theorem digitsExt_append :
    ∀ (n : List Char), n ≠ [] → (∀ c ∈ n, c.isDigit = true) →
      ∀ (ext : List Char), extMatch ext = true → digitsExt (n ++ ext) = true
  | [], h, _, _, _ => absurd rfl h
  | [c], _, hdig, ext, hext => by
      simp [digitsExt, hdig c (by simp), hext]
  | c :: c2 :: n2, _, hdig, ext, hext => by
      have ih2 : digitsExt (c2 :: (n2 ++ ext)) = true :=
        digitsExt_append (c2 :: n2) (by simp)
          (fun x hx => hdig x (List.mem_cons_of_mem _ hx)) ext hext
      show digitsExt (c :: (c2 :: (n2 ++ ext))) = true
      rw [digitsExt, ih2]
      simp [hdig c (by simp)]

theorem readSuffixAt_junction (d : Char) (t : List Char)
    (hd : d = '1' ∨ d = '2') (ht : digitsExt t = true) :
    readSuffixAt ('_' :: 'R' :: d :: '_' :: t) = true := by
  have hdd : (d == '1' || d == '2') = true := by
    rcases hd with h | h <;> subst h <;> decide
  simp [readSuffixAt, hdd, ht]

theorem not_readSuffixAt_mid (zs : List Char) (d : Char) (t : List Char)
    (hne : zs ≠ []) : readSuffixAt (zs ++ '_' :: 'R' :: d :: '_' :: t) = false := by
  match zs, hne with
  | [z1], _ =>
      have : (('_' : Char) == 'R') = false := by decide
      simp [readSuffixAt, this]
  | [z1, a], _ =>
      have : (('R' : Char) == '_') = false := by decide
      simp [readSuffixAt, this]
  | [z1, a, b], _ =>
      have : ('R' : Char).isDigit = false := by decide
      simp [readSuffixAt, digitsExt, this]
  | z1 :: a :: b :: c :: zs2, _ =>
      have hmem : '_' ∈ zs2 ++ '_' :: 'R' :: d :: '_' :: t :=
        List.mem_append_right _ (List.mem_cons_self _ _)
      have hdig : digitsExt (zs2 ++ '_' :: 'R' :: d :: '_' :: t) = false := by
        cases hv : digitsExt (zs2 ++ '_' :: 'R' :: d :: '_' :: t) with
        | false => rfl
        | true => exact absurd hmem (digitsExt_no_us hv)
      simp [readSuffixAt, hdig]

theorem stripAux_append (p ys : List Char) (hys : readSuffixAt ys = true)
    (hmid : ∀ zs, zs ≠ [] → zs <:+ p → readSuffixAt (zs ++ ys) = false) :
    stripAux (p ++ ys) = p := by
  induction p with
  | nil =>
      cases ys with
      | nil => simp [readSuffixAt] at hys
      | cons c rest => simp [stripAux, hys]
  | cons c p2 ih =>
      have h1 : readSuffixAt (c :: (p2 ++ ys)) = false := by
        have := hmid (c :: p2) (by simp) List.suffix_rfl
        simpa using this
      rw [List.cons_append, stripAux, if_neg (by simp [h1])]
      have h2 : stripAux (p2 ++ ys) = p2 :=
        ih (fun zs hz hsuf => hmid zs hz (hsuf.trans (List.suffix_cons c p2)))
      rw [h2]

theorem stripAux_filename (p : List Char) (d : Char) (n ext : List Char)
    (hd : d = '1' ∨ d = '2') (hn : n ≠ []) (hdig : ∀ c ∈ n, c.isDigit = true)
    (hext : extMatch ext = true) :
    stripAux (p ++ '_' :: 'R' :: d :: '_' :: (n ++ ext)) = p :=
  stripAux_append p _ (readSuffixAt_junction d _ hd (digitsExt_append n hn hdig ext hext))
    (fun zs hz _ => not_readSuffixAt_mid zs d _ hz)

theorem lookup_update_ne (m : List (String × PairEntry)) (s file fp k : String)
    (h : s ≠ k) : lookupSample (updateSample m s file fp) k = lookupSample m k := by
  induction m with
  | nil => rfl
  | cons kv rest ih =>
      by_cases hk : kv.1 = s
      · have hk2 : ¬ (kv.1 = k) := by rw [hk]; exact h
        simp [updateSample, lookupSample, hk, hk2, ih, h]
      · by_cases hk2 : kv.1 = k
        · have hks : ¬ (k = s) := fun hh => hk (by rw [hk2, hh])
          simp [updateSample, lookupSample, hk, hk2, ih, hks]
        · simp [updateSample, lookupSample, hk, hk2, ih]

theorem lookup_update_eq (m : List (String × PairEntry)) (s file fp : String) :
    lookupSample (updateSample m s file fp) s
      = (lookupSample m s).map (applyRole file fp) := by
  induction m with
  | nil => rfl
  | cons kv rest ih =>
      by_cases hk : kv.1 = s <;> simp [updateSample, lookupSample, hk, ih]

theorem lookup_of_not_containsKey (m : List (String × PairEntry)) (k : String)
    (h : containsKey m k = false) : lookupSample m k = none := by
  induction m with
  | nil => rfl
  | cons kv rest ih =>
      by_cases hk : kv.1 = k
      · simp [containsKey, hk] at h
      · simp [containsKey, hk] at h
        simp [lookupSample, hk, ih h]

theorem lookup_isSome_of_containsKey (m : List (String × PairEntry)) (k : String)
    (h : containsKey m k = true) : ∃ e, lookupSample m k = some e := by
  induction m with
  | nil => simp [containsKey] at h
  | cons kv rest ih =>
      by_cases hk : kv.1 = k
      · exact ⟨kv.2, by simp [lookupSample, hk]⟩
      · simp [containsKey, hk] at h
        obtain ⟨e, he⟩ := ih h
        exact ⟨e, by simp [lookupSample, hk, he]⟩

theorem lookup_append_single_self (m : List (String × PairEntry)) (s : String)
    (e : PairEntry) (h : containsKey m s = false) :
    lookupSample (m ++ [(s, e)]) s = some e := by
  induction m with
  | nil => simp [lookupSample]
  | cons kv rest ih =>
      by_cases hk : kv.1 = s
      · simp [containsKey, hk] at h
      · simp [containsKey, hk] at h
        simp [lookupSample, hk, ih h]

theorem lookup_append_single_ne (m : List (String × PairEntry)) (s : String)
    (e : PairEntry) (k : String) (h : s ≠ k) :
    lookupSample (m ++ [(s, e)]) k = lookupSample m k := by
  induction m with
  | nil => simp [lookupSample, h]
  | cons kv rest ih =>
      by_cases hk : kv.1 = k <;> simp [lookupSample, hk, ih]

theorem insertFile_not_ext (m : List (String × PairEntry)) (root file : String)
    (h : hasFastqExt file = false) : insertFile m root file = m := by
  simp [insertFile, h]

theorem lookup_insertFile_ne (m : List (String × PairEntry)) (root file k : String)
    (h : stripReadSuffix file ≠ k) :
    lookupSample (insertFile m root file) k = lookupSample m k := by
  unfold insertFile
  by_cases hx : hasFastqExt file = true
  · rw [if_pos hx, lookup_update_ne _ _ _ _ _ h]
    by_cases hc : containsKey m (stripReadSuffix file) = true
    · rw [if_pos hc]
    · rw [if_neg hc, lookup_append_single_ne _ _ _ _ h]
  · rw [if_neg hx]

theorem lookup_insertFile_self (m : List (String × PairEntry)) (root file : String)
    (hx : hasFastqExt file = true) :
    lookupSample (insertFile m root file) (stripReadSuffix file)
      = some (applyRole file (root ++ "/" ++ file)
          ((lookupSample m (stripReadSuffix file)).getD emptyEntry)) := by
  unfold insertFile
  rw [if_pos hx]
  by_cases hc : containsKey m (stripReadSuffix file) = true
  · rw [if_pos hc, lookup_update_eq]
    obtain ⟨e, he⟩ := lookup_isSome_of_containsKey _ _ hc
    rw [he]
    rfl
  · rw [if_neg hc, lookup_update_eq,
      lookup_append_single_self _ _ _ (eq_false_of_ne_true hc),
      lookup_of_not_containsKey _ _ (eq_false_of_ne_true hc)]
    rfl

theorem lookup_insertFile_rel (m : List (String × PairEntry)) (root file p : String)
    (hx : hasFastqExt file = true) (hs : stripReadSuffix file = p) :
    lookupSample (insertFile m root file) p
      = some (applyRole file (root ++ "/" ++ file)
          ((lookupSample m p).getD emptyEntry)) := by
  subst hs
  exact lookup_insertFile_self m root file hx

theorem applyRole_r1_of_not (file fp : String) (e : PairEntry)
    (h : hasSubSeq ("_R1_").data file.data = false) :
    (applyRole file fp e).r1 = e.r1 := by
  unfold applyRole
  rw [h]
  simp only [Bool.false_eq_true, if_false]
  by_cases h2 : hasSubSeq ("_R2_").data file.data = true <;> simp [h2]

theorem applyRole_r1_of_set (file fp : String) (e : PairEntry)
    (h : hasSubSeq ("_R1_").data file.data = true) :
    (applyRole file fp e).r1 = some fp := by
  simp [applyRole, h]

theorem applyRole_r2_of_set (file fp : String) (e : PairEntry)
    (h1 : hasSubSeq ("_R1_").data file.data = false)
    (h2 : hasSubSeq ("_R2_").data file.data = true) :
    (applyRole file fp e).r2 = some fp := by
  simp [applyRole, h1, h2]

theorem applyRole_r2_of_not (file fp : String) (e : PairEntry)
    (h : hasSubSeq ("_R1_").data file.data = false →
      hasSubSeq ("_R2_").data file.data = false) :
    (applyRole file fp e).r2 = e.r2 := by
  unfold applyRole
  by_cases h1 : hasSubSeq ("_R1_").data file.data = true
  · simp [h1]
  · have h1f : hasSubSeq ("_R1_").data file.data = false := eq_false_of_ne_true h1
    simp [h1f, h h1f]

/-- One fold step of `find_fastq_pairs`. -/
theorem foldFiles_cons (rf : String × String) (rest : List (String × String))
    (m : List (String × PairEntry)) :
    (rf :: rest).foldl (fun acc x => insertFile acc x.1 x.2) m
      = rest.foldl (fun acc x => insertFile acc x.1 x.2) (insertFile m rf.1 rf.2) := rfl

theorem fold_keep_r1 (p : String) :
    ∀ (fs : List (String × String)) (m : List (String × PairEntry)) (e : PairEntry),
      lookupSample m p = some e →
      (∀ rf ∈ fs, hasFastqExt rf.2 = true → stripReadSuffix rf.2 = p →
        hasSubSeq ("_R1_").data rf.2.data = false) →
      ∃ e2, lookupSample (fs.foldl (fun acc x => insertFile acc x.1 x.2) m) p = some e2 ∧
        e2.r1 = e.r1
  | [], m, e, hm, _ => ⟨e, hm, rfl⟩
  | rf :: rest, m, e, hm, hfs => by
      rw [foldFiles_cons]
      by_cases hx : hasFastqExt rf.2 = true
      · by_cases hs : stripReadSuffix rf.2 = p
        · have hnoR1 := hfs rf (List.mem_cons_self _ _) hx hs
          have hlk : lookupSample (insertFile m rf.1 rf.2) p
              = some (applyRole rf.2 (rf.1 ++ "/" ++ rf.2) e) := by
            rw [lookup_insertFile_rel m rf.1 rf.2 p hx hs, hm]
            rfl
          obtain ⟨e2, he2, hr⟩ := fold_keep_r1 p rest (insertFile m rf.1 rf.2) _ hlk
            (fun x hx2 => hfs x (List.mem_cons_of_mem _ hx2))
          exact ⟨e2, he2, by rw [hr, applyRole_r1_of_not _ _ _ hnoR1]⟩
        · have hlk : lookupSample (insertFile m rf.1 rf.2) p = some e := by
            rw [lookup_insertFile_ne m rf.1 rf.2 p hs]
            exact hm
          exact fold_keep_r1 p rest _ _ hlk (fun x hx2 => hfs x (List.mem_cons_of_mem _ hx2))
      · have hlk : lookupSample (insertFile m rf.1 rf.2) p = some e := by
          rw [insertFile_not_ext m rf.1 rf.2 (eq_false_of_ne_true hx)]
          exact hm
        exact fold_keep_r1 p rest _ _ hlk (fun x hx2 => hfs x (List.mem_cons_of_mem _ hx2))

theorem fold_keep_r2 (p : String) :
    ∀ (fs : List (String × String)) (m : List (String × PairEntry)) (e : PairEntry),
      lookupSample m p = some e →
      (∀ rf ∈ fs, hasFastqExt rf.2 = true → stripReadSuffix rf.2 = p →
        hasSubSeq ("_R1_").data rf.2.data = false →
        hasSubSeq ("_R2_").data rf.2.data = false) →
      ∃ e2, lookupSample (fs.foldl (fun acc x => insertFile acc x.1 x.2) m) p = some e2 ∧
        e2.r2 = e.r2
  | [], m, e, hm, _ => ⟨e, hm, rfl⟩
  | rf :: rest, m, e, hm, hfs => by
      rw [foldFiles_cons]
      by_cases hx : hasFastqExt rf.2 = true
      · by_cases hs : stripReadSuffix rf.2 = p
        · have hno := hfs rf (List.mem_cons_self _ _) hx hs
          have hlk : lookupSample (insertFile m rf.1 rf.2) p
              = some (applyRole rf.2 (rf.1 ++ "/" ++ rf.2) e) := by
            rw [lookup_insertFile_rel m rf.1 rf.2 p hx hs, hm]
            rfl
          obtain ⟨e2, he2, hr⟩ := fold_keep_r2 p rest (insertFile m rf.1 rf.2) _ hlk
            (fun x hx2 => hfs x (List.mem_cons_of_mem _ hx2))
          exact ⟨e2, he2, by rw [hr, applyRole_r2_of_not _ _ _ hno]⟩
        · have hlk : lookupSample (insertFile m rf.1 rf.2) p = some e := by
            rw [lookup_insertFile_ne m rf.1 rf.2 p hs]
            exact hm
          exact fold_keep_r2 p rest _ _ hlk (fun x hx2 => hfs x (List.mem_cons_of_mem _ hx2))
      · have hlk : lookupSample (insertFile m rf.1 rf.2) p = some e := by
          rw [insertFile_not_ext m rf.1 rf.2 (eq_false_of_ne_true hx)]
          exact hm
        exact fold_keep_r2 p rest _ _ hlk (fun x hx2 => hfs x (List.mem_cons_of_mem _ hx2))

theorem fold_set_r1 (p path1 : String) :
    ∀ (fs : List (String × String)) (m : List (String × PairEntry)),
      (∃ rf ∈ fs, hasFastqExt rf.2 = true ∧ stripReadSuffix rf.2 = p ∧
        hasSubSeq ("_R1_").data rf.2.data = true) →
      (∀ rf ∈ fs, hasFastqExt rf.2 = true → stripReadSuffix rf.2 = p →
        hasSubSeq ("_R1_").data rf.2.data = true → rf.1 ++ "/" ++ rf.2 = path1) →
      ∃ e, lookupSample (fs.foldl (fun acc x => insertFile acc x.1 x.2) m) p = some e ∧
        e.r1 = some path1
  | [], _, hex, _ => by simp at hex
  | rf :: rest, m, hex, hall => by
      rw [foldFiles_cons]
      by_cases hrest : ∃ rf2 ∈ rest, hasFastqExt rf2.2 = true ∧
          stripReadSuffix rf2.2 = p ∧ hasSubSeq ("_R1_").data rf2.2.data = true
      · exact fold_set_r1 p path1 rest _ hrest
          (fun x hx2 => hall x (List.mem_cons_of_mem _ hx2))
      · obtain ⟨rf0, hrf0mem, hrf0⟩ := hex
        have hhead : hasFastqExt rf.2 = true ∧ stripReadSuffix rf.2 = p ∧
            hasSubSeq ("_R1_").data rf.2.data = true := by
          rcases List.mem_cons.mp hrf0mem with he | he
          · rw [← he]; exact hrf0
          · exact absurd ⟨rf0, he, hrf0⟩ hrest
        have hpath := hall rf (List.mem_cons_self _ _) hhead.1 hhead.2.1 hhead.2.2
        have hlk : lookupSample (insertFile m rf.1 rf.2) p
            = some (applyRole rf.2 (rf.1 ++ "/" ++ rf.2)
                ((lookupSample m p).getD emptyEntry)) :=
          lookup_insertFile_rel m rf.1 rf.2 p hhead.1 hhead.2.1
        have hr1 : (applyRole rf.2 (rf.1 ++ "/" ++ rf.2)
            ((lookupSample m p).getD emptyEntry)).r1 = some path1 := by
          rw [applyRole_r1_of_set _ _ _ hhead.2.2, hpath]
        obtain ⟨e2, he2, hr⟩ := fold_keep_r1 p rest (insertFile m rf.1 rf.2) _ hlk
          (fun x hx2 hxx hss => by
            by_cases hb : hasSubSeq ("_R1_").data x.2.data = true
            · exact absurd ⟨x, hx2, hxx, hss, hb⟩ hrest
            · exact eq_false_of_ne_true hb)
        exact ⟨e2, he2, by rw [hr, hr1]⟩

theorem fold_set_r2 (p path2 : String) :
    ∀ (fs : List (String × String)) (m : List (String × PairEntry)),
      (∃ rf ∈ fs, hasFastqExt rf.2 = true ∧ stripReadSuffix rf.2 = p ∧
        hasSubSeq ("_R1_").data rf.2.data = false ∧
        hasSubSeq ("_R2_").data rf.2.data = true) →
      (∀ rf ∈ fs, hasFastqExt rf.2 = true → stripReadSuffix rf.2 = p →
        hasSubSeq ("_R1_").data rf.2.data = false →
        hasSubSeq ("_R2_").data rf.2.data = true → rf.1 ++ "/" ++ rf.2 = path2) →
      ∃ e, lookupSample (fs.foldl (fun acc x => insertFile acc x.1 x.2) m) p = some e ∧
        e.r2 = some path2
  | [], _, hex, _ => by simp at hex
  | rf :: rest, m, hex, hall => by
      rw [foldFiles_cons]
      by_cases hrest : ∃ rf2 ∈ rest, hasFastqExt rf2.2 = true ∧
          stripReadSuffix rf2.2 = p ∧ hasSubSeq ("_R1_").data rf2.2.data = false ∧
          hasSubSeq ("_R2_").data rf2.2.data = true
      · exact fold_set_r2 p path2 rest _ hrest
          (fun x hx2 => hall x (List.mem_cons_of_mem _ hx2))
      · obtain ⟨rf0, hrf0mem, hrf0⟩ := hex
        have hhead : hasFastqExt rf.2 = true ∧ stripReadSuffix rf.2 = p ∧
            hasSubSeq ("_R1_").data rf.2.data = false ∧
            hasSubSeq ("_R2_").data rf.2.data = true := by
          rcases List.mem_cons.mp hrf0mem with he | he
          · rw [← he]; exact hrf0
          · exact absurd ⟨rf0, he, hrf0⟩ hrest
        have hpath := hall rf (List.mem_cons_self _ _) hhead.1 hhead.2.1 hhead.2.2.1 hhead.2.2.2
        have hlk : lookupSample (insertFile m rf.1 rf.2) p
            = some (applyRole rf.2 (rf.1 ++ "/" ++ rf.2)
                ((lookupSample m p).getD emptyEntry)) :=
          lookup_insertFile_rel m rf.1 rf.2 p hhead.1 hhead.2.1
        have hr2 : (applyRole rf.2 (rf.1 ++ "/" ++ rf.2)
            ((lookupSample m p).getD emptyEntry)).r2 = some path2 := by
          rw [applyRole_r2_of_set _ _ _ hhead.2.2.1 hhead.2.2.2, hpath]
        obtain ⟨e2, he2, hr⟩ := fold_keep_r2 p rest (insertFile m rf.1 rf.2) _ hlk
          (fun x hx2 hxx hss hb1 => by
            by_cases hb : hasSubSeq ("_R2_").data x.2.data = true
            · exact absurd ⟨x, hx2, hxx, hss, hb1, hb⟩ hrest
            · exact eq_false_of_ne_true hb)
        exact ⟨e2, he2, by rw [hr, hr2]⟩

theorem fold_r1_none (p : String) :
    ∀ (fs : List (String × String)) (m : List (String × PairEntry)),
      (∀ e, lookupSample m p = some e → e.r1 = none) →
      (∀ rf ∈ fs, hasFastqExt rf.2 = true → stripReadSuffix rf.2 = p →
        hasSubSeq ("_R1_").data rf.2.data = false) →
      ∀ e, lookupSample (fs.foldl (fun acc x => insertFile acc x.1 x.2) m) p = some e →
        e.r1 = none
  | [], m, hm, _ => hm
  | rf :: rest, m, hm, hfs => by
      rw [foldFiles_cons]
      by_cases hx : hasFastqExt rf.2 = true
      · by_cases hs : stripReadSuffix rf.2 = p
        · have hnoR1 := hfs rf (List.mem_cons_self _ _) hx hs
          have hm2 : ∀ e, lookupSample (insertFile m rf.1 rf.2) p = some e → e.r1 = none := by
            intro e he
            rw [lookup_insertFile_rel m rf.1 rf.2 p hx hs] at he
            have he2 := Option.some.inj he
            have hbase : ((lookupSample m p).getD emptyEntry).r1 = none := by
              cases hl : lookupSample m p with
              | none => rfl
              | some e0 => simpa using hm e0 hl
            rw [← he2, applyRole_r1_of_not _ _ _ hnoR1, hbase]
          exact fold_r1_none p rest _ hm2 (fun x hx2 => hfs x (List.mem_cons_of_mem _ hx2))
        · have hm2 : ∀ e, lookupSample (insertFile m rf.1 rf.2) p = some e → e.r1 = none := by
            intro e he
            rw [lookup_insertFile_ne m rf.1 rf.2 p hs] at he
            exact hm e he
          exact fold_r1_none p rest _ hm2 (fun x hx2 => hfs x (List.mem_cons_of_mem _ hx2))
      · have hm2 : ∀ e, lookupSample (insertFile m rf.1 rf.2) p = some e → e.r1 = none := by
          intro e he
          rw [insertFile_not_ext m rf.1 rf.2 (eq_false_of_ne_true hx)] at he
          exact hm e he
        exact fold_r1_none p rest _ hm2 (fun x hx2 => hfs x (List.mem_cons_of_mem _ hx2))

theorem keysOf_updateSample (m : List (String × PairEntry)) (s f fp : String) :
    (updateSample m s f fp).map Prod.fst = m.map Prod.fst := by
  induction m with
  | nil => rfl
  | cons kv rest ih => by_cases hk : kv.1 = s <;> simp [updateSample, hk, ih]

theorem not_mem_keys (m : List (String × PairEntry)) (k : String)
    (h : containsKey m k = false) : k ∉ m.map Prod.fst := by
  induction m with
  | nil => simp
  | cons kv rest ih =>
      by_cases hk : kv.1 = k
      · simp [containsKey, hk] at h
      · simp [containsKey, hk] at h
        intro hmem
        rcases List.mem_cons.mp hmem with he | he
        · exact hk he.symm
        · exact ih h he

theorem nodup_keys_insertFile (m : List (String × PairEntry)) (root file : String)
    (h : (m.map Prod.fst).Nodup) : ((insertFile m root file).map Prod.fst).Nodup := by
  unfold insertFile
  by_cases hx : hasFastqExt file = true
  · rw [if_pos hx, keysOf_updateSample]
    by_cases hc : containsKey m (stripReadSuffix file) = true
    · rw [if_pos hc]; exact h
    · rw [if_neg hc, List.map_append]
      rw [List.nodup_append]
      refine ⟨h, by simp, ?_⟩
      intro a ha hb
      simp at hb
      rw [hb] at ha
      exact not_mem_keys m _ (eq_false_of_ne_true hc) ha
  · rw [if_neg hx]; exact h

theorem nodup_keys_fold :
    ∀ (fs : List (String × String)) (m : List (String × PairEntry)),
      (m.map Prod.fst).Nodup →
      ((fs.foldl (fun acc x => insertFile acc x.1 x.2) m).map Prod.fst).Nodup
  | [], _, h => h
  | rf :: rest, m, h => by
      rw [foldFiles_cons]
      exact nodup_keys_fold rest _ (nodup_keys_insertFile m rf.1 rf.2 h)

theorem nodup_keys_find (fs : List (String × String)) :
    ((find_fastq_pairs fs).map Prod.fst).Nodup :=
  nodup_keys_fold fs [] (by simp)

theorem keyCount_zero_of_not_mem (m : List (String × PairEntry)) (p : String)
    (h : p ∉ m.map Prod.fst) : keyCount m p = 0 := by
  induction m with
  | nil => rfl
  | cons kv rest ih =>
      simp only [List.map_cons, List.mem_cons] at h
      push_neg at h
      have hk : ¬ (kv.1 = p) := fun hh => h.1 hh.symm
      simp [keyCount, hk, ih h.2]

theorem keyCount_one (m : List (String × PairEntry)) (p : String) (e : PairEntry)
    (hnd : (m.map Prod.fst).Nodup) (hs : lookupSample m p = some e) :
    keyCount m p = 1 := by
  induction m with
  | nil => simp [lookupSample] at hs
  | cons kv rest ih =>
      rw [List.map_cons, List.nodup_cons] at hnd
      by_cases hk : kv.1 = p
      · have hnotin : p ∉ rest.map Prod.fst := hk ▸ hnd.1
        simp [keyCount, hk, keyCount_zero_of_not_mem rest p hnotin]
      · simp only [lookupSample, hk, if_false] at hs
        simp [keyCount, hk, ih hnd.2 hs]

theorem name_data_R1 (p n : String) :
    (p ++ "_R1_" ++ n ++ ".fastq.gz").data
      = p.data ++ ('_' :: 'R' :: '1' :: '_' :: (n.data ++ (".fastq.gz").data)) := by
  rw [data_append, data_append, data_append, List.append_assoc, List.append_assoc]
  rfl

theorem name_data_R2 (p n : String) :
    (p ++ "_R2_" ++ n ++ ".fastq.gz").data
      = p.data ++ ('_' :: 'R' :: '2' :: '_' :: (n.data ++ (".fastq.gz").data)) := by
  rw [data_append, data_append, data_append, List.append_assoc, List.append_assoc]
  rfl

theorem stripReadSuffix_R1 (p n : String) (hn : n.data ≠ [])
    (hdig : ∀ c ∈ n.data, c.isDigit = true) :
    stripReadSuffix (p ++ "_R1_" ++ n ++ ".fastq.gz") = p := by
  unfold stripReadSuffix
  rw [name_data_R1,
    stripAux_filename p.data '1' n.data (".fastq.gz").data (Or.inl rfl) hn hdig (by decide)]

theorem stripReadSuffix_R2 (p n : String) (hn : n.data ≠ [])
    (hdig : ∀ c ∈ n.data, c.isDigit = true) :
    stripReadSuffix (p ++ "_R2_" ++ n ++ ".fastq.gz") = p := by
  unfold stripReadSuffix
  rw [name_data_R2,
    stripAux_filename p.data '2' n.data (".fastq.gz").data (Or.inr rfl) hn hdig (by decide)]

theorem hasSubSeq_R1_name (p n : String) :
    hasSubSeq ("_R1_").data (p ++ "_R1_" ++ n ++ ".fastq.gz").data = true := by
  rw [name_data_R1]
  exact hasSubSeq_append_mid ("_R1_").data p.data (n.data ++ (".fastq.gz").data)

theorem hasSubSeq_R2_name (p n : String) :
    hasSubSeq ("_R2_").data (p ++ "_R2_" ++ n ++ ".fastq.gz").data = true := by
  rw [name_data_R2]
  exact hasSubSeq_append_mid ("_R2_").data p.data (n.data ++ (".fastq.gz").data)

theorem hasFastqExt_R1_name (p n : String) :
    hasFastqExt (p ++ "_R1_" ++ n ++ ".fastq.gz") = true := by
  refine hasFastqExt_gz (p.data ++ ('_' :: 'R' :: '1' :: '_' :: n.data)) ?_
  rw [name_data_R1, List.append_assoc]
  rfl

theorem hasFastqExt_R2_name (p n : String) :
    hasFastqExt (p ++ "_R2_" ++ n ++ ".fastq.gz") = true := by
  refine hasFastqExt_gz (p.data ++ ('_' :: 'R' :: '2' :: '_' :: n.data)) ?_
  rw [name_data_R2, List.append_assoc]
  rfl

/-- C3 counterexample: for the prefix a_R1_b (which contains the substring
_R1_), the walked pair a_R1_b_R1_001.fastq.gz / a_R1_b_R2_001.fastq.gz does
not give an entry with both roles populated: the R2 file also matches the
`'_R1_' in file` test first, so it overwrites the R1 role and the R2 role
stays empty. -/
theorem C3_counterexample :
    lookupSample
        (find_fastq_pairs
          [("d", "a_R1_b_R1_001.fastq.gz"), ("d", "a_R1_b_R2_001.fastq.gz")])
        ("a_R1_b")
      = some ⟨some ("d/a_R1_b_R2_001.fastq.gz"), none⟩ ∧
    lookupSample
        (find_fastq_pairs
          [("d", "a_R1_b_R1_001.fastq.gz"), ("d", "a_R1_b_R2_001.fastq.gz")])
        ("a_R1_b")
      ≠ some ⟨some ("d/a_R1_b_R1_001.fastq.gz"), some ("d/a_R1_b_R2_001.fastq.gz")⟩ := by
  constructor <;> decide

/-- C3 (amended): for a pair of walked files <prefix>_R1_<n>.fastq.gz and
<prefix>_R2_<n>.fastq.gz in the same directory, provided the R2 filename does
not contain the substring _R1_ and no other walked fastq file strips to the
same prefix, find_fastq_pairs yields exactly one entry keyed <prefix>, with
the R1 and R2 roles populated with the two corresponding file paths. -/
theorem C3_amended (fs : List (String × String)) (d p n : String)
    (hn : n.data ≠ []) (hdig : ∀ c ∈ n.data, c.isDigit = true)
    (hnoR1 : hasSubSeq ("_R1_").data (p ++ "_R2_" ++ n ++ ".fastq.gz").data = false)
    (hmem1 : (d, p ++ "_R1_" ++ n ++ ".fastq.gz") ∈ fs)
    (hmem2 : (d, p ++ "_R2_" ++ n ++ ".fastq.gz") ∈ fs)
    (huniq : ∀ rf ∈ fs, hasFastqExt rf.2 = true → stripReadSuffix rf.2 = p →
      rf = (d, p ++ "_R1_" ++ n ++ ".fastq.gz") ∨
        rf = (d, p ++ "_R2_" ++ n ++ ".fastq.gz")) :
    keyCount (find_fastq_pairs fs) p = 1 ∧
    lookupSample (find_fastq_pairs fs) p
      = some ⟨some (d ++ "/" ++ (p ++ "_R1_" ++ n ++ ".fastq.gz")),
              some (d ++ "/" ++ (p ++ "_R2_" ++ n ++ ".fastq.gz"))⟩ := by
  have hex1 : ∃ rf ∈ fs, hasFastqExt rf.2 = true ∧ stripReadSuffix rf.2 = p ∧
      hasSubSeq ("_R1_").data rf.2.data = true :=
    ⟨(d, p ++ "_R1_" ++ n ++ ".fastq.gz"), hmem1, hasFastqExt_R1_name p n,
      stripReadSuffix_R1 p n hn hdig, hasSubSeq_R1_name p n⟩
  have hall1 : ∀ rf ∈ fs, hasFastqExt rf.2 = true → stripReadSuffix rf.2 = p →
      hasSubSeq ("_R1_").data rf.2.data = true →
      rf.1 ++ "/" ++ rf.2 = d ++ "/" ++ (p ++ "_R1_" ++ n ++ ".fastq.gz") := by
    intro rf hrf hx hs hr1
    rcases huniq rf hrf hx hs with he | he
    · rw [he]
    · rw [he] at hr1
      rw [hnoR1] at hr1
      exact absurd hr1 Bool.false_ne_true
  have hex2 : ∃ rf ∈ fs, hasFastqExt rf.2 = true ∧ stripReadSuffix rf.2 = p ∧
      hasSubSeq ("_R1_").data rf.2.data = false ∧
      hasSubSeq ("_R2_").data rf.2.data = true :=
    ⟨(d, p ++ "_R2_" ++ n ++ ".fastq.gz"), hmem2, hasFastqExt_R2_name p n,
      stripReadSuffix_R2 p n hn hdig, hnoR1, hasSubSeq_R2_name p n⟩
  have hall2 : ∀ rf ∈ fs, hasFastqExt rf.2 = true → stripReadSuffix rf.2 = p →
      hasSubSeq ("_R1_").data rf.2.data = false →
      hasSubSeq ("_R2_").data rf.2.data = true →
      rf.1 ++ "/" ++ rf.2 = d ++ "/" ++ (p ++ "_R2_" ++ n ++ ".fastq.gz") := by
    intro rf hrf hx hs hr1f _
    rcases huniq rf hrf hx hs with he | he
    · rw [he] at hr1f
      rw [hasSubSeq_R1_name p n] at hr1f
      exact absurd hr1f.symm Bool.false_ne_true
    · rw [he]
  obtain ⟨ea, hlka, hra⟩ := fold_set_r1 p _ fs [] hex1 hall1
  obtain ⟨eb, hlkb, hrb⟩ := fold_set_r2 p _ fs [] hex2 hall2
  have heq : ea = eb := Option.some.inj (hlka.symm.trans hlkb)
  have hr2a : ea.r2 = some (d ++ "/" ++ (p ++ "_R2_" ++ n ++ ".fastq.gz")) := by
    rw [heq]
    exact hrb
  have hfin : ea = ⟨some (d ++ "/" ++ (p ++ "_R1_" ++ n ++ ".fastq.gz")),
      some (d ++ "/" ++ (p ++ "_R2_" ++ n ++ ".fastq.gz"))⟩ := by
    obtain ⟨a1, a2⟩ := ea
    have h1 : a1 = some (d ++ "/" ++ (p ++ "_R1_" ++ n ++ ".fastq.gz")) := hra
    have h2 : a2 = some (d ++ "/" ++ (p ++ "_R2_" ++ n ++ ".fastq.gz")) := hr2a
    rw [h1, h2]
  refine ⟨?_, ?_⟩
  · have := keyCount_one _ p ea (nodup_keys_find fs)
    unfold find_fastq_pairs at this ⊢
    exact this hlka
  · unfold find_fastq_pairs
    rw [hlka, hfin]

theorem C3_amended_witness :
    keyCount
        (find_fastq_pairs [("d", "s" ++ "_R1_" ++ "001" ++ ".fastq.gz"),
          ("d", "s" ++ "_R2_" ++ "001" ++ ".fastq.gz")]) ("s") = 1 ∧
    lookupSample
        (find_fastq_pairs [("d", "s" ++ "_R1_" ++ "001" ++ ".fastq.gz"),
          ("d", "s" ++ "_R2_" ++ "001" ++ ".fastq.gz")]) ("s")
      = some ⟨some ("d" ++ "/" ++ ("s" ++ "_R1_" ++ "001" ++ ".fastq.gz")),
              some ("d" ++ "/" ++ ("s" ++ "_R2_" ++ "001" ++ ".fastq.gz"))⟩ :=
  C3_amended
    [("d", "s" ++ "_R1_" ++ "001" ++ ".fastq.gz"),
     ("d", "s" ++ "_R2_" ++ "001" ++ ".fastq.gz")]
    ("d") ("s") ("001") (by decide) (by decide) (by decide) (by decide) (by decide)
    (by decide)

/-- C4 counterexample: for a sample with only an R2 file, Discovery does not
emit zero units: find_fastq_pairs stores an entry for the stripped sample
name (with the primary role unset), so the mapping is not empty at that key. -/
theorem C4_counterexample :
    lookupSample (find_fastq_pairs [("d", "s_R2_001.fastq.gz")]) ("s")
      = some ⟨none, some ("d/s_R2_001.fastq.gz")⟩ ∧
    lookupSample (find_fastq_pairs [("d", "s_R2_001.fastq.gz")]) ("s") ≠ none := by
  constructor <;> decide

/-- C4 (amended): a sample with only an R2 file and no R1 file is excluded
from processing, but not from Discovery: find_fastq_pairs emits one unit for
it with the primary role unset, and process_sample then skips that unit —
running no command — with the logged warning. -/
theorem C4_amended (fs : List (String × String)) (d p n : String) (a : ForensicsArgs)
    (hn : n.data ≠ []) (hdig : ∀ c ∈ n.data, c.isDigit = true)
    (hnoR1 : hasSubSeq ("_R1_").data (p ++ "_R2_" ++ n ++ ".fastq.gz").data = false)
    (hmem : (d, p ++ "_R2_" ++ n ++ ".fastq.gz") ∈ fs)
    (huniq : ∀ rf ∈ fs, hasFastqExt rf.2 = true → stripReadSuffix rf.2 = p →
      rf = (d, p ++ "_R2_" ++ n ++ ".fastq.gz")) :
    lookupSample (find_fastq_pairs fs) p
      = some ⟨none, some (d ++ "/" ++ (p ++ "_R2_" ++ n ++ ".fastq.gz"))⟩ ∧
    process_sample a p ⟨none, some (d ++ "/" ++ (p ++ "_R2_" ++ n ++ ".fastq.gz"))⟩
      = ProcessAction.skipped
          (("Warning: No R1 file found for sample ") ++ p ++ (", skipping...")) := by
  refine ⟨?_, rfl⟩
  have hex2 : ∃ rf ∈ fs, hasFastqExt rf.2 = true ∧ stripReadSuffix rf.2 = p ∧
      hasSubSeq ("_R1_").data rf.2.data = false ∧
      hasSubSeq ("_R2_").data rf.2.data = true :=
    ⟨(d, p ++ "_R2_" ++ n ++ ".fastq.gz"), hmem, hasFastqExt_R2_name p n,
      stripReadSuffix_R2 p n hn hdig, hnoR1, hasSubSeq_R2_name p n⟩
  have hall2 : ∀ rf ∈ fs, hasFastqExt rf.2 = true → stripReadSuffix rf.2 = p →
      hasSubSeq ("_R1_").data rf.2.data = false →
      hasSubSeq ("_R2_").data rf.2.data = true →
      rf.1 ++ "/" ++ rf.2 = d ++ "/" ++ (p ++ "_R2_" ++ n ++ ".fastq.gz") := by
    intro rf hrf hx hs _ _
    rw [huniq rf hrf hx hs]
  obtain ⟨eb, hlkb, hrb⟩ := fold_set_r2 p _ fs [] hex2 hall2
  have hnone : eb.r1 = none := by
    refine fold_r1_none p fs [] ?_ ?_ eb hlkb
    · intro e he
      simp [lookupSample] at he
    · intro rf hrf hx hs
      rw [huniq rf hrf hx hs]
      exact hnoR1
  have hfin : eb = ⟨none, some (d ++ "/" ++ (p ++ "_R2_" ++ n ++ ".fastq.gz"))⟩ := by
    obtain ⟨b1, b2⟩ := eb
    have h1 : b1 = none := hnone
    have h2 : b2 = some (d ++ "/" ++ (p ++ "_R2_" ++ n ++ ".fastq.gz")) := hrb
    rw [h1, h2]
  unfold find_fastq_pairs
  rw [hlkb, hfin]

theorem C4_amended_witness :
    lookupSample (find_fastq_pairs [("d", "s" ++ "_R2_" ++ "001" ++ ".fastq.gz")]) ("s")
      = some ⟨none, some ("d" ++ "/" ++ ("s" ++ "_R2_" ++ "001" ++ ".fastq.gz"))⟩ ∧
    process_sample ⟨"o", "g", "i", "l", "b"⟩ ("s")
        ⟨none, some ("d" ++ "/" ++ ("s" ++ "_R2_" ++ "001" ++ ".fastq.gz"))⟩
      = ProcessAction.skipped
          (("Warning: No R1 file found for sample ") ++ "s" ++ (", skipping...")) :=
  C4_amended [("d", "s" ++ "_R2_" ++ "001" ++ ".fastq.gz")] ("d") ("s") ("001")
    ⟨"o", "g", "i", "l", "b"⟩ (by decide) (by decide) (by decide) (by decide) (by decide)

theorem takeWhile_append_stop (l1 : List Char) (a : Char) (l2 : List Char)
    (h : ∀ c ∈ l1, (c != '/') = true) (ha : (a != '/') = false) :
    (l1 ++ a :: l2).takeWhile (fun c => c != '/') = l1 := by
  induction l1 with
  | nil => simp [List.takeWhile_cons, ha]
  | cons c cs ih =>
      rw [List.cons_append, List.takeWhile_cons, h c (List.mem_cons_self _ _)]
      simp [ih (fun x hx => h x (List.mem_cons_of_mem _ hx))]

theorem lastComponent_append (dir nm : String)
    (h : ∀ c ∈ nm.data, (c != '/') = true) :
    lastComponent (dir ++ "/" ++ nm) = nm := by
  unfold lastComponent
  rw [data_append, data_append, List.reverse_append, List.reverse_append]
  have hsl : (("/").data.reverse ++ dir.data.reverse) = '/' :: dir.data.reverse := rfl
  rw [hsl, takeWhile_append_stop nm.data.reverse '/' dir.data.reverse
    (fun c hc => h c (List.mem_reverse.mp hc)) (by decide)]
  rw [List.reverse_reverse]

theorem pyStemList_gz (b : List Char) :
    pyStemList (b ++ (".fastq.gz").data) = b ++ (".fastq").data := by
  unfold pyStemList
  rw [List.reverse_append]
  have hrev : (".fastq.gz").data.reverse
      = 'z' :: 'g' :: '.' :: 'q' :: 't' :: 's' :: 'a' :: 'f' :: '.' :: [] := by decide
  rw [hrev]
  simp only [List.cons_append, List.dropWhile, List.takeWhile]
  norm_num
  simp [List.reverse_cons, List.append_assoc]

theorem replaceListAux_no_match (pat rep : List Char) :
    ∀ (fuel : Nat) (l : List Char), hasSubSeq pat l = false →
      replaceListAux pat rep fuel l = l
  | fuel, [], _ => by cases fuel <;> rfl
  | 0, c :: rest, _ => rfl
  | fuel + 1, c :: rest, h => by
      rw [hasSubSeq] at h
      simp only [Bool.or_eq_false_iff] at h
      rw [replaceListAux, if_neg (by simp [h.1])]
      rw [replaceListAux_no_match pat rep fuel rest h.2]

theorem strReplace_no_match (s pat rep : String)
    (h : hasSubSeq pat.data s.data = false) : strReplace s pat rep = s := by
  unfold strReplace replaceList
  rw [replaceListAux_no_match pat.data rep.data s.data.length s.data h]

theorem digit_ne_slash {c : Char} (h : c.isDigit = true) : (c != '/') = true := by
  by_cases hc : c = '/'
  · subst hc
    rw [show ('/' : Char).isDigit = false from by decide] at h
    exact absurd h Bool.false_ne_true
  · simp [bne_iff_ne, hc]

/-- C5 counterexample: in the per-pair processing path, the sample identifier
of sample_R1_001.fastq.gz is not the stripped name: `fq1.stem` removes only
the final .gz, and the following `.replace(".fastq.gz", "")` never matches,
leaving sample_R1_001.fastq. -/
theorem C5_counterexample :
    pipelineSampleName ("/in/sample_R1_001.fastq.gz") = "sample_R1_001.fastq" ∧
    pipelineSampleName ("/in/sample_R1_001.fastq.gz") ≠ "sample" := by
  constructor <;> decide

/-- C5 (amended): the discovery path (find_fastq_pairs) derives the identifier
by stripping the read designator, run suffix and extension — <p>_R1_<n>.fastq.gz
yields <p> — but the per-pair processing path (process_fastq_pair) keeps them:
its identifier is the filename with only the trailing .gz removed, i.e.
<p>_R1_<n>.fastq, because Path.stem strips just the last suffix and the
subsequent replace of ".fastq.gz" finds no occurrence. -/
theorem C5_amended (dir p n : String)
    (hn : n.data ≠ []) (hdig : ∀ c ∈ n.data, c.isDigit = true)
    (hsl : ∀ c ∈ p.data, (c != '/') = true)
    (hrep : hasSubSeq (".fastq.gz").data (p ++ "_R1_" ++ n ++ ".fastq").data = false) :
    stripReadSuffix (p ++ "_R1_" ++ n ++ ".fastq.gz") = p ∧
    pipelineSampleName (dir ++ "/" ++ (p ++ "_R1_" ++ n ++ ".fastq.gz"))
      = p ++ "_R1_" ++ n ++ ".fastq" := by
  refine ⟨stripReadSuffix_R1 p n hn hdig, ?_⟩
  have hnm : ∀ c ∈ (p ++ "_R1_" ++ n ++ ".fastq.gz").data, (c != '/') = true := by
    intro c hc
    rw [name_data_R1] at hc
    rcases List.mem_append.mp hc with hc | hc
    · exact hsl c hc
    · simp only [List.mem_cons] at hc
      rcases hc with hc | hc | hc | hc | hc
      · subst hc; decide
      · subst hc; decide
      · subst hc; decide
      · subst hc; decide
      · rcases List.mem_append.mp hc with hc | hc
        · exact digit_ne_slash (hdig c hc)
        · have hall : ∀ x ∈ (".fastq.gz").data, (x != '/') = true := by decide
          exact hall c hc
  unfold pipelineSampleName pyStem
  rw [lastComponent_append dir _ hnm]
  have hdata2 : (p ++ "_R1_" ++ n ++ ".fastq.gz").data
      = (p.data ++ ('_' :: 'R' :: '1' :: '_' :: n.data)) ++ (".fastq.gz").data := by
    rw [name_data_R1, List.append_assoc]
    rfl
  rw [hdata2, pyStemList_gz]
  have hback : (p.data ++ ('_' :: 'R' :: '1' :: '_' :: n.data)) ++ (".fastq").data
      = (p ++ "_R1_" ++ n ++ ".fastq").data := by
    rw [data_append, data_append, data_append]
    simp [List.append_assoc]
  rw [hback]
  exact strReplace_no_match _ _ _ hrep

theorem C5_amended_witness :
    stripReadSuffix ("sample" ++ "_R1_" ++ "001" ++ ".fastq.gz") = "sample" ∧
    pipelineSampleName ("/in" ++ "/" ++ ("sample" ++ "_R1_" ++ "001" ++ ".fastq.gz"))
      = "sample" ++ "_R1_" ++ "001" ++ ".fastq" :=
  C5_amended ("/in") ("sample") ("001") (by decide) (by decide) (by decide) (by decide)

/-- C6 counterexample: with a thread budget of 1, the filtering invocation is
passed thread count 0 (1 // 2), not max(1, 1 // 2) = 1: the command line built
by run_fastp contains --thread 0 and does not contain --thread 1. -/
theorem C6_counterexample :
    hasSubSeq ["--thread", "0"]
      (fastp_cmd ("/in/s_R1_001.fastq.gz") ("/in/s_R2_001.fastq.gz")
        ("/in/filtered_fastqs") ("s_R1_001.fastq") false 1 20 40) = true ∧
    hasSubSeq ["--thread", toString (max 1 (1 / 2))]
      (fastp_cmd ("/in/s_R1_001.fastq.gz") ("/in/s_R2_001.fastq.gz")
        ("/in/filtered_fastqs") ("s_R1_001.fastq") false 1 20 40) = false := by
  constructor <;> decide

/-- C6 (amended): in both merge and split mode, run_fastp passes the filtering
tool a thread count of exactly floor(t / 2) — there is no minimum of 1, so a
budget of 0 or 1 passes 0 threads. -/
theorem C6_amended (fq1 fq2 od sn : String) (merge : Bool) (t ph pc : Nat) :
    hasSubSeq ["--thread", toString (t / 2)]
      (fastp_cmd fq1 fq2 od sn merge t ph pc) = true := by
  cases merge with
  | true =>
      exact hasSubSeq_append_mid ["--thread", toString (t / 2)]
        ["fastp", "--in1", fq1, "--in2", fq2, "--merge",
         "--merged_out", od ++ "/" ++ sn ++ ".merged.filtered.fastq.gz",
         "--qualified_quality_phred", toString ph,
         "--unqualified_percent_limit", toString pc,
         "--trim_poly_g", "--trim_poly_x", "--length_required", "100"] []
  | false =>
      exact hasSubSeq_append_mid ["--thread", toString (t / 2)]
        ["fastp", "--in1", fq1, "--in2", fq2,
         "--out1", od ++ "/" ++ sn ++ ".filtered.R1.fastq.gz",
         "--out2", od ++ "/" ++ sn ++ ".filtered.R2.fastq.gz",
         "--qualified_quality_phred", toString ph,
         "--unqualified_percent_limit", toString pc,
         "--trim_poly_g", "--trim_poly_x", "--length_required", "100"] []

theorem fastp_cmd_head (fq1 fq2 od sn : String) (merge : Bool) (t ph pc : Nat) :
    (fastp_cmd fq1 fq2 od sn merge t ph pc).head? = some ("fastp") := by
  cases merge <;> rfl

theorem pipelineFastpCmd_head (args : PipelineArgs) (fq1 : String) :
    (pipelineFastpCmd args fq1).head? = some ("fastp") :=
  fastp_cmd_head _ _ _ _ _ _ _ _

theorem umierrorcorrect_cmd_head (r1 : String) (r2 : Option String)
    (od sn ref : String) (ul sl : Nat) (bed : Option String) (t : Nat) :
    (umierrorcorrect_cmd r1 r2 od sn ref ul sl bed t).head?
      = some ("run_umierrorcorrect.py") := rfl

theorem pipelineUmiCmd_head (args : PipelineArgs) (fq1 : String) :
    (pipelineUmiCmd args fq1).head? = some ("run_umierrorcorrect.py") :=
  umierrorcorrect_cmd_head _ _ _ _ _ _ _ _ _

theorem findUmiCmd_process (oracle : List String → Bool) (args : PipelineArgs)
    (fq1 : String)
    (hf : args.do_filtering = true → oracle (pipelineFastpCmd args fq1) = true) :
    findUmiCmd (process_fastq_pair oracle args fq1).1 = some (pipelineUmiCmd args fq1) := by
  have hfneq : ¬ ((pipelineFastpCmd args fq1).head? = some ("run_umierrorcorrect.py")) := by
    rw [pipelineFastpCmd_head]
    decide
  have humi : (pipelineUmiCmd args fq1).head? = some ("run_umierrorcorrect.py") :=
    pipelineUmiCmd_head args fq1
  unfold process_fastq_pair
  cases hdo : args.do_filtering with
  | true =>
      rw [hf hdo]
      cases horacle : oracle (pipelineUmiCmd args fq1) <;>
        simp [horacle, findUmiCmd, hfneq, humi]
  | false =>
      cases horacle : oracle (pipelineUmiCmd args fq1) <;>
        simp [horacle, findUmiCmd, humi]

theorem pipelineR1R2_snd_some (args : PipelineArgs) (fq1 : String)
    (hm : args.merge_reads = false) : ∃ v, (pipelineR1R2 args fq1).2 = some v := by
  unfold pipelineR1R2
  cases hdo : args.do_filtering with
  | true =>
      refine ⟨filteredDirOf args ++ "/" ++ pipelineSampleName fq1 ++ ".filtered.R2.fastq.gz", ?_⟩
      simp [fastp_outputs, hm]
  | false =>
      refine ⟨strReplace fq1 ("R1") ("R2"), ?_⟩
      simp

theorem umi_cmd_mode_single (r1 od sn ref : String) (ul sl : Nat)
    (bed : Option String) (t : Nat) :
    hasSubSeq [("-mode"), ("single")]
      (umierrorcorrect_cmd r1 none od sn ref ul sl bed t) = true := by
  unfold umierrorcorrect_cmd
  rw [List.append_assoc]
  exact hasSubSeq_append_mid _ _ _

theorem umi_cmd_mode_paired (r1 v od sn ref : String) (ul sl : Nat)
    (bed : Option String) (t : Nat) :
    hasSubSeq [("-mode"), ("paired")]
      (umierrorcorrect_cmd r1 (some v) od sn ref ul sl bed t) = true := by
  unfold umierrorcorrect_cmd
  have heq : (["run_umierrorcorrect.py", "-o", od ++ "/" ++ sn, "-r1", r1, "-r", ref,
        "-ul", toString ul, "-sl", toString sl, "-t", toString t] ++
      ["-r2", v, "-mode", "paired"]) ++
      (match bed with | some b => ["-bed", b] | none => ([] : List String))
      = (["run_umierrorcorrect.py", "-o", od ++ "/" ++ sn, "-r1", r1, "-r", ref,
          "-ul", toString ul, "-sl", toString sl, "-t", toString t] ++ ["-r2", v]) ++
        (["-mode", "paired"] ++
          (match bed with | some b => ["-bed", b] | none => ([] : List String))) := by
    simp
  rw [heq]
  exact hasSubSeq_append_mid _ _ _

theorem umi_cmd_r2 (r1 v od sn ref : String) (ul sl : Nat)
    (bed : Option String) (t : Nat) :
    hasSubSeq ["-r2", v] (umierrorcorrect_cmd r1 (some v) od sn ref ul sl bed t) = true := by
  unfold umierrorcorrect_cmd
  rw [List.append_assoc]
  exact hasSubSeq_append_mid _ _ _

/-- C7 counterexample: for a sample whose R2 file does not exist (the world
holds only the R1 file), with merge mode off, process_fastq_pair still passes
the error-correction tool mode paired — refuting that paired mode is selected
exactly when a secondary read file exists. -/
theorem C7_counterexample :
    findUmiCmd (process_fastq_pair envC7.oracle argsBase ("/in/s_R1_001.fastq.gz")).1
      = some (pipelineUmiCmd argsBase ("/in/s_R1_001.fastq.gz")) ∧
    hasSubSeq [("-mode"), ("paired")]
      (pipelineUmiCmd argsBase ("/in/s_R1_001.fastq.gz")) = true ∧
    strReplace ("/in/s_R1_001.fastq.gz") ("R1") ("R2") = "/in/s_R2_001.fastq.gz" ∧
    envC7.files.contains ("/in/s_R2_001.fastq.gz") = false ∧
    argsBase.merge_reads = false := by
  refine ⟨?_, ?_, ?_, ?_, ?_⟩ <;> decide

/-- C7 (amended): the mode flag handed to the error-correction stage is
determined solely by the merge toggle — single when merging, paired
otherwise — regardless of whether a real secondary file exists, because the
secondary argument is always populated (fastp's split output, or the
R1-to-R2-substituted path). -/
theorem C7_amended (oracle : List String → Bool) (args : PipelineArgs) (fq1 : String)
    (hf : args.do_filtering = true → oracle (pipelineFastpCmd args fq1) = true) :
    findUmiCmd (process_fastq_pair oracle args fq1).1 = some (pipelineUmiCmd args fq1) ∧
    hasSubSeq [("-mode"), if args.merge_reads then ("single") else ("paired")]
      (pipelineUmiCmd args fq1) = true := by
  refine ⟨findUmiCmd_process oracle args fq1 hf, ?_⟩
  cases hm : args.merge_reads with
  | true =>
      unfold pipelineUmiCmd
      simp only [hm, if_true]
      exact umi_cmd_mode_single _ _ _ _ _ _ _ _
  | false =>
      obtain ⟨v, hv⟩ := pipelineR1R2_snd_some args fq1 hm
      unfold pipelineUmiCmd
      simp only [hm, Bool.false_eq_true, if_false]
      rw [hv]
      exact umi_cmd_mode_paired _ _ _ _ _ _ _ _ _

theorem C7_amended_witness :
    findUmiCmd (process_fastq_pair oracleTrue argsBase ("/in/s_R1_001.fastq.gz")).1
      = some (pipelineUmiCmd argsBase ("/in/s_R1_001.fastq.gz")) ∧
    hasSubSeq [("-mode"), if argsBase.merge_reads then ("single") else ("paired")]
      (pipelineUmiCmd argsBase ("/in/s_R1_001.fastq.gz")) = true :=
  C7_amended oracleTrue argsBase ("/in/s_R1_001.fastq.gz") (fun _ => rfl)

/-- C10: with merge mode off, process_fastq_pair always hands the
error-correction invocation a non-None secondary argument: the raw secondary
path is fabricated from the primary by substituting every occurrence of R1
with R2 over the whole path string (strReplace, with no existence check), and
with filtering on the fastp split output is used; either way the invocation
carries an -r2 argument. -/
theorem C10_secondary (oracle : List String → Bool) (args : PipelineArgs) (fq1 : String)
    (hm : args.merge_reads = false)
    (hf : args.do_filtering = true → oracle (pipelineFastpCmd args fq1) = true) :
    findUmiCmd (process_fastq_pair oracle args fq1).1 = some (pipelineUmiCmd args fq1) ∧
    (if args.merge_reads then none else (pipelineR1R2 args fq1).2).isSome = true ∧
    (args.do_filtering = false →
      (pipelineR1R2 args fq1).2 = some (strReplace fq1 ("R1") ("R2"))) ∧
    hasSubSeq ["-r2", ((pipelineR1R2 args fq1).2).getD ("")]
      (pipelineUmiCmd args fq1) = true := by
  obtain ⟨v, hv⟩ := pipelineR1R2_snd_some args fq1 hm
  refine ⟨findUmiCmd_process oracle args fq1 hf, ?_, ?_, ?_⟩
  · simp [hm, hv]
  · intro hdo
    unfold pipelineR1R2
    simp [hdo]
  · unfold pipelineUmiCmd
    simp only [hm, Bool.false_eq_true, if_false]
    rw [hv]
    simp only [Option.getD_some]
    exact umi_cmd_r2 _ _ _ _ _ _ _ _ _

theorem C10_secondary_witness :
    findUmiCmd (process_fastq_pair oracleTrue argsBase ("/in/s_R1_001.fastq.gz")).1
      = some (pipelineUmiCmd argsBase ("/in/s_R1_001.fastq.gz")) ∧
    (if argsBase.merge_reads then none
     else (pipelineR1R2 argsBase ("/in/s_R1_001.fastq.gz")).2).isSome = true ∧
    (argsBase.do_filtering = false →
      (pipelineR1R2 argsBase ("/in/s_R1_001.fastq.gz")).2
        = some (strReplace ("/in/s_R1_001.fastq.gz") ("R1") ("R2"))) ∧
    hasSubSeq ["-r2", ((pipelineR1R2 argsBase ("/in/s_R1_001.fastq.gz")).2).getD ("")]
      (pipelineUmiCmd argsBase ("/in/s_R1_001.fastq.gz")) = true :=
  C10_secondary oracleTrue argsBase ("/in/s_R1_001.fastq.gz") rfl (fun _ => rfl)

theorem check_paths_fst_false (env : Env) (rdir ref : String) (bed : Option String)
    (h : fileExists env ref = false) :
    (check_paths_ev env rdir ref bed).1 = false := by
  unfold check_paths_ev
  cases hd : dirExists env rdir <;> simp [hd, h]

theorem check_paths_ev_cases (env : Env) (rdir ref : String) (bed : Option String) :
    (check_paths_ev env rdir ref bed).2 = [] ∨
    ∃ m, (check_paths_ev env rdir ref bed).2 = [Event.logError m] := by
  unfold check_paths_ev
  cases hd : dirExists env rdir
  · exact Or.inr ⟨("Input directory does not exist: ") ++ rdir, by simp [hd]⟩
  · cases hr : fileExists env ref
    · exact Or.inr ⟨("Reference genome file not found: ") ++ ref, by simp [hd, hr]⟩
    · rcases bed with _ | b
      · exact Or.inl (by simp [hd, hr])
      · cases hb : fileExists env b
        · exact Or.inr ⟨("BED file not found: ") ++ b, by simp [hd, hr, hb]⟩
        · exact Or.inl (by simp [hd, hr, hb])

theorem check_paths_logerr (env : Env) (rdir ref : String) (bed : Option String)
    (h : (check_paths_ev env rdir ref bed).1 = false) :
    hasLogError (check_paths_ev env rdir ref bed).2 = true := by
  unfold check_paths_ev at h ⊢
  cases hd : dirExists env rdir
  · simp [hasLogError, isLogErrorEv]
  · cases hr : fileExists env ref
    · simp [hd, hasLogError, isLogErrorEv]
    · rcases bed with _ | b
      · simp [hd, hr] at h
      · cases hb : fileExists env b
        · simp [hd, hr, hb, hasLogError, isLogErrorEv]
        · simp [hd, hr, hb] at h

theorem cleanOf_of_logs (dir : String) (tr : List Event)
    (h : tr = [] ∨ ∃ m, tr = [Event.logError m]) : cleanOf dir tr = true := by
  rcases h with h | ⟨m, h⟩ <;> subst h <;> simp [cleanOf, eventWritesUnder]

theorem norun_of_logs (tr : List Event)
    (h : tr = [] ∨ ∃ m, tr = [Event.logError m]) : hasRunCmd tr = false := by
  rcases h with h | ⟨m, h⟩ <;> subst h <;> simp [hasRunCmd, isRunCmdEv]

theorem cleanOf_append (dir : String) (a b : List Event) :
    cleanOf dir (a ++ b) = (cleanOf dir a && cleanOf dir b) := by
  simp [cleanOf, List.all_append]

theorem hasRunCmd_append (a b : List Event) :
    hasRunCmd (a ++ b) = (hasRunCmd a || hasRunCmd b) := by
  simp [hasRunCmd, List.any_append]

theorem hasLogError_append (a b : List Event) :
    hasLogError (a ++ b) = (hasLogError a || hasLogError b) := by
  simp [hasLogError, List.any_append]

theorem isUnder_cancel (d x y : String) : isUnder (d ++ x) (d ++ y) = isUnder x y := by
  unfold isUnder
  have h1 : ((d ++ x) ++ "/").data = d.data ++ (x.data ++ ("/").data) := by
    rw [data_append, data_append, List.append_assoc]
  have h3 : (x ++ "/").data = x.data ++ ("/").data := data_append x ("/")
  rw [h1, data_append, beginsWith_append_cancel, h3]

theorem cleanOf_setup (args : PipelineArgs) (x : String)
    (h1 : isUnder x ("/filtered_fastqs") = false)
    (h2 : isUnder x ("/umi_corrected_samples") = false)
    (h3 : isUnder x ("/qc_reports") = false)
    (h4 : isUnder x ("/script_log.txt") = false) :
    cleanOf (args.input_dir ++ x) (mainSetup args) = true := by
  simp [cleanOf, mainSetup, eventWritesUnder, isUnder_cancel, h1, h2, h3, h4]

theorem norun_setup (args : PipelineArgs) : hasRunCmd (mainSetup args) = false := by
  simp [hasRunCmd, mainSetup, isRunCmdEv]

/-- C2: a run whose reference path is not an existing file exits with status 1
before processing any sample: no external command is run, run_qc is never
reached, a configuration error is logged, and no filesystem entry is created
below any of the three output directories (the directories themselves and the
log file sit beside, not below, them). -/
theorem C2_holds (env : Env) (args : PipelineArgs)
    (href : fileExists env args.reference = false) :
    (main_run env args).exitCode = 1 ∧
    (main_run env args).ranQC = false ∧
    hasRunCmd (main_run env args).trace = false ∧
    hasLogError (main_run env args).trace = true ∧
    cleanOf (args.input_dir ++ "/filtered_fastqs") (main_run env args).trace = true ∧
    cleanOf (args.input_dir ++ "/umi_corrected_samples") (main_run env args).trace = true ∧
    cleanOf (args.input_dir ++ "/qc_reports") (main_run env args).trace = true := by
  have hp : (check_paths_ev env args.input_dir args.reference args.bed).1 = false :=
    check_paths_fst_false env args.input_dir args.reference args.bed href
  have hpcases := check_paths_ev_cases env args.input_dir args.reference args.bed
  have hperr := check_paths_logerr env args.input_dir args.reference args.bed hp
  cases hdep : env.depsOk with
  | false =>
      have hd : check_dependencies_ev env
          = (false, [Event.logError ("Missing dependencies")]) := by
        simp [check_dependencies_ev, hdep]
      have hmr : main_run env args
          = ⟨mainSetup args ++ [Event.logError ("Missing dependencies")], 1, false⟩ := by
        unfold main_run
        rw [hd]
        rfl
      rw [hmr]
      refine ⟨rfl, rfl, ?_, ?_, ?_, ?_, ?_⟩
      · rw [hasRunCmd_append, norun_setup]
        rfl
      · rw [hasLogError_append]
        rfl
      · rw [cleanOf_append, cleanOf_setup args ("/filtered_fastqs")
          (by decide) (by decide) (by decide) (by decide)]
        rfl
      · rw [cleanOf_append, cleanOf_setup args ("/umi_corrected_samples")
          (by decide) (by decide) (by decide) (by decide)]
        rfl
      · rw [cleanOf_append, cleanOf_setup args ("/qc_reports")
          (by decide) (by decide) (by decide) (by decide)]
        rfl
  | true =>
      have hd : check_dependencies_ev env
          = (true, [Event.logInfo ("All dependencies are present.")]) := by
        simp [check_dependencies_ev, hdep]
      have hmr : main_run env args
          = ⟨mainSetup args ++ [Event.logInfo ("All dependencies are present.")] ++
              (check_paths_ev env args.input_dir args.reference args.bed).2, 1, false⟩ := by
        unfold main_run
        rw [hd, hp]
        rfl
      rw [hmr]
      refine ⟨rfl, rfl, ?_, ?_, ?_, ?_, ?_⟩
      · rw [hasRunCmd_append, hasRunCmd_append, norun_setup, norun_of_logs _ hpcases]
        rfl
      · rw [hasLogError_append, hperr]
        simp
      · rw [cleanOf_append, cleanOf_append, cleanOf_setup args ("/filtered_fastqs")
          (by decide) (by decide) (by decide) (by decide),
          cleanOf_of_logs _ _ hpcases]
        rfl
      · rw [cleanOf_append, cleanOf_append, cleanOf_setup args ("/umi_corrected_samples")
          (by decide) (by decide) (by decide) (by decide),
          cleanOf_of_logs _ _ hpcases]
        rfl
      · rw [cleanOf_append, cleanOf_append, cleanOf_setup args ("/qc_reports")
          (by decide) (by decide) (by decide) (by decide),
          cleanOf_of_logs _ _ hpcases]
        rfl

theorem C2_holds_witness :
    (main_run envC2 argsBase).exitCode = 1 ∧
    (main_run envC2 argsBase).ranQC = false ∧
    hasRunCmd (main_run envC2 argsBase).trace = false ∧
    hasLogError (main_run envC2 argsBase).trace = true ∧
    cleanOf (argsBase.input_dir ++ "/filtered_fastqs") (main_run envC2 argsBase).trace = true ∧
    cleanOf (argsBase.input_dir ++ "/umi_corrected_samples")
      (main_run envC2 argsBase).trace = true ∧
    cleanOf (argsBase.input_dir ++ "/qc_reports") (main_run envC2 argsBase).trace = true :=
  C2_holds envC2 argsBase (by decide)

/-- C1 counterexample: a run in which the single sample's pipeline fails (its
fastp invocation fails) exits with status 1, but run_qc is NOT invoked —
main's exception handler calls sys.exit(1) before the run_qc call — refuting
that the reporting stages still run. -/
theorem C1_counterexample :
    (sampleRuns envC1 argsBase).any failSnd = true ∧
    (main_run envC1 argsBase).exitCode = 1 ∧
    (main_run envC1 argsBase).ranQC = false := by
  refine ⟨?_, ?_, ?_⟩ <;> decide

/-- C1 (amended): when dependency and path checks pass and at least one
sample's pipeline fails, the run exits with status 1, but the reporting
stages are not invoked: main exits from the exception handler before the
run_qc call, so neither FastQC nor MultiQC runs. -/
theorem C1_amended (env : Env) (args : PipelineArgs)
    (hdeps : env.depsOk = true)
    (hpaths : (check_paths_ev env args.input_dir args.reference args.bed).1 = true)
    (hfail : (sampleRuns env args).any failSnd = true) :
    (main_run env args).exitCode = 1 ∧ (main_run env args).ranQC = false := by
  have hd : check_dependencies_ev env
      = (true, [Event.logInfo ("All dependencies are present.")]) := by
    simp [check_dependencies_ev, hdeps]
  unfold main_run
  rw [hd, hpaths, hfail]
  exact ⟨rfl, rfl⟩

theorem C1_amended_witness :
    (main_run envC1 argsBase).exitCode = 1 ∧ (main_run envC1 argsBase).ranQC = false :=
  C1_amended envC1 argsBase rfl (by decide) (by decide)

/-- C8 counterexample: with two samples of which exactly the first one's
filtering invocation fails, the first sample's pipeline fails while the
second completes normally, yet the overall run is aborted: it exits 1 and
run_qc is never invoked — refuting that a per-sample filtering failure does
not abort the overall run. -/
theorem C8_counterexample :
    (process_fastq_pair envC8.oracle argsBase ("/in/a_R1_001.fastq.gz")).2 = false ∧
    (process_fastq_pair envC8.oracle argsBase ("/in/b_R1_001.fastq.gz")).2 = true ∧
    (main_run envC8 argsBase).exitCode = 1 ∧
    (main_run envC8 argsBase).ranQC = false := by
  refine ⟨?_, ?_, ?_, ?_⟩ <;> decide

/-- C8 (amended): for a sample whose filtering invocation fails, error
correction is never invoked for it, the failure is logged with diagnostic
text, the failed invocation is not retried (that sample performs exactly one
external invocation), and every discovered sample is still processed by the
pool (the run's trace contains all samples' traces) — but the overall run is
aborted afterwards: it exits 1 without invoking run_qc. -/
theorem C8_amended (env : Env) (args : PipelineArgs) (fq1 : String)
    (hdo : args.do_filtering = true)
    (hmem : fq1 ∈ samplePaths env args)
    (hfail : env.oracle (pipelineFastpCmd args fq1) = false)
    (hdeps : env.depsOk = true)
    (hpaths : (check_paths_ev env args.input_dir args.reference args.bed).1 = true) :
    (process_fastq_pair env.oracle args fq1).2 = false ∧
    findUmiCmd (process_fastq_pair env.oracle args fq1).1 = none ∧
    countRunCmd (process_fastq_pair env.oracle args fq1).1 = 1 ∧
    hasLogError (process_fastq_pair env.oracle args fq1).1 = true ∧
    (sampleRuns env args).length = (samplePaths env args).length ∧
    (main_run env args).trace
      = mainSetup args ++ (check_dependencies_ev env).2 ++
          (check_paths_ev env args.input_dir args.reference args.bed).2 ++
          ((sampleRuns env args).map Prod.fst).flatten ++
          [Event.logError ("Error during FASTQ processing")] ∧
    (main_run env args).exitCode = 1 ∧
    (main_run env args).ranQC = false := by
  have hpp : process_fastq_pair env.oracle args fq1
      = ([Event.logInfo (("Processing sample: ") ++ pipelineSampleName fq1),
          Event.runCmd (pipelineFastpCmd args fq1),
          Event.logError (("Error running fastp for ") ++ fq1 ++ (" and ") ++
            strReplace fq1 ("R1") ("R2")),
          Event.logError (("Error processing ") ++ pipelineSampleName fq1)], false) := by
    unfold process_fastq_pair
    rw [hdo, hfail]
    rfl
  have hfneq : ¬ ((pipelineFastpCmd args fq1).head? = some ("run_umierrorcorrect.py")) := by
    rw [pipelineFastpCmd_head]
    decide
  have hfail2 : (sampleRuns env args).any failSnd = true := by
    rw [List.any_eq_true]
    refine ⟨process_fastq_pair env.oracle args fq1,
      List.mem_map_of_mem (process_fastq_pair env.oracle args) hmem, ?_⟩
    rw [hpp]
    rfl
  have hd : check_dependencies_ev env
      = (true, [Event.logInfo ("All dependencies are present.")]) := by
    simp [check_dependencies_ev, hdeps]
  have hmr : main_run env args
      = ⟨mainSetup args ++ (check_dependencies_ev env).2 ++
          (check_paths_ev env args.input_dir args.reference args.bed).2 ++
          ((sampleRuns env args).map Prod.fst).flatten ++
          [Event.logError ("Error during FASTQ processing")], 1, false⟩ := by
    unfold main_run
    rw [hd, hpaths, hfail2]
    rfl
  refine ⟨by rw [hpp], ?_, by rw [hpp]; rfl, by rw [hpp]; rfl, ?_, ?_, ?_, ?_⟩
  · rw [hpp]
    simp [findUmiCmd, hfneq]
  · unfold sampleRuns
    exact List.length_map _ _
  · rw [hmr]
  · rw [hmr]
  · rw [hmr]

theorem C8_amended_witness :
    (process_fastq_pair envC8.oracle argsBase ("/in/a_R1_001.fastq.gz")).2 = false ∧
    findUmiCmd (process_fastq_pair envC8.oracle argsBase ("/in/a_R1_001.fastq.gz")).1 = none ∧
    countRunCmd (process_fastq_pair envC8.oracle argsBase ("/in/a_R1_001.fastq.gz")).1 = 1 ∧
    hasLogError (process_fastq_pair envC8.oracle argsBase ("/in/a_R1_001.fastq.gz")).1 = true ∧
    (sampleRuns envC8 argsBase).length = (samplePaths envC8 argsBase).length ∧
    (main_run envC8 argsBase).trace
      = mainSetup argsBase ++ (check_dependencies_ev envC8).2 ++
          (check_paths_ev envC8 argsBase.input_dir argsBase.reference argsBase.bed).2 ++
          ((sampleRuns envC8 argsBase).map Prod.fst).flatten ++
          [Event.logError ("Error during FASTQ processing")] ∧
    (main_run envC8 argsBase).exitCode = 1 ∧
    (main_run envC8 argsBase).ranQC = false :=
  C8_amended envC8 argsBase ("/in/a_R1_001.fastq.gz") rfl (by decide) (by decide) rfl
    (by decide)

/-- Modelled from the spec: the scheduler is stuck — no start or finish step
applies. -/
def SchedStuck (N : Nat) (s : SchedState) : Prop := ∀ s2, ¬ SchedStep N s s2

theorem schedStep_bound (N : Nat) {s1 s2 : SchedState} (h : SchedStep N s1 s2)
    (hb : s1.running.length ≤ N) : s2.running.length ≤ N := by
  cases h with
  | start t p r d hlt => simpa using hlt
  | finish t p r1 r2 d =>
      simp only [List.length_append, List.length_cons] at hb ⊢
      omega

theorem schedStep_perm (N : Nat) {s1 s2 : SchedState} (h : SchedStep N s1 s2) :
    (s2.pending ++ s2.running ++ s2.done).Perm (s1.pending ++ s1.running ++ s1.done) := by
  cases h with
  | start t p r d hlt =>
      exact List.Perm.append_right d List.perm_middle
  | finish t p r1 r2 d =>
      have h1 : ((p ++ (r1 ++ r2)) ++ t :: d).Perm (t :: ((p ++ (r1 ++ r2)) ++ d)) :=
        List.perm_middle
      have h2 : (p ++ (r1 ++ t :: r2)).Perm (t :: (p ++ (r1 ++ r2))) :=
        (List.Perm.append_left p List.perm_middle).trans List.perm_middle
      have h3 : ((p ++ (r1 ++ t :: r2)) ++ d).Perm ((t :: (p ++ (r1 ++ r2))) ++ d) :=
        List.Perm.append_right d h2
      exact h1.trans h3.symm

theorem schedReach_inv (N : Nat) (tasks : List Nat) (s : SchedState)
    (h : SchedReach N ⟨tasks, [], []⟩ s) :
    s.running.length ≤ N ∧ (s.pending ++ s.running ++ s.done).Perm tasks := by
  induction h with
  | refl => simp
  | tail hsteps hstep ih =>
      exact ⟨schedStep_bound N hstep ih.1, (schedStep_perm N hstep).trans ih.2⟩

theorem sched_progress (N : Nat) (hN : 1 ≤ N) (s : SchedState)
    (hstuck : SchedStuck N s) : s.pending = [] ∧ s.running = [] := by
  obtain ⟨p, r, d⟩ := s
  cases hr : r with
  | cons t rest =>
      subst hr
      exact absurd (SchedStep.finish t p [] rest d) (hstuck _)
  | nil =>
      subst hr
      cases hp : p with
      | cons t rest =>
          subst hp
          have hstart : SchedStep N ⟨t :: rest, [], d⟩ ⟨rest, [t], d⟩ :=
            SchedStep.start t rest [] d (by simpa using hN)
          exact absurd hstart (hstuck _)
      | nil =>
          subst hp
          exact ⟨rfl, rfl⟩

/-- C9: in the bounded-worker scheduler model with concurrency limit N ≥ 1
and more tasks than workers, every reachable state runs at most N tasks at
once, and any state from which no further step is possible has completed
every task: its done list is a permutation of the initial task list. -/
theorem C9_scheduler (N : Nat) (tasks : List Nat) (s : SchedState)
    (hN : 1 ≤ N) (hM : N < tasks.length)
    (hreach : SchedReach N ⟨tasks, [], []⟩ s) :
    s.running.length ≤ N ∧ (SchedStuck N s → s.done.Perm tasks) := by
  have hinv := schedReach_inv N tasks s hreach
  refine ⟨hinv.1, fun hstuck => ?_⟩
  obtain ⟨hp, hr⟩ := sched_progress N hN s hstuck
  have hperm := hinv.2
  rw [hp, hr] at hperm
  simpa using hperm

theorem C9_scheduler_witness :
    (SchedState.mk [0, 1] [] []).running.length ≤ 1 ∧
    (SchedStuck 1 (SchedState.mk [0, 1] [] []) →
      (SchedState.mk [0, 1] [] []).done.Perm [0, 1]) :=
  C9_scheduler 1 [0, 1] (SchedState.mk [0, 1] [] []) (by decide) (by decide)
    Relation.ReflTransGen.refl
